import Mathlib

/-!
Verification of the databao/portus core against its specification.

This file shallowly embeds the parts of the source that the checked
properties are about:

* `portus/caches/in_mem_cache.py` (`InMemCache`)
* `portus/core/data_engine.py` (`DataEngine.get_source_schema`)
* `portus/agent/lighthouse/lighthouse_agent.py` (`LighthouseAgent.execute`)
* `portus/data_source/sqlalchemy_source.py`
  (`SqlAlchemyDataSource.ainspect_schema`, `_inspect_column_values`)
* `portus/caching/schema_inspection_cache.py` (`get_inspection_cache_key`)

Python dictionaries are embedded as ordered association lists with
dict-update semantics (`dictSet`), matching insertion-ordered Python
dicts.  Raised exceptions are embedded with `Except PyErr`.  Components
that are external to the repository (the `re` module, the SQL backend
behind `sqlalchemy_utils`, the dtype predicates of `database_types`, the
langgraph runtime behind `Graph.compile`) enter as parameters, and the
few pieces of repository code not present in the sources are modelled
from the specification, as indicated by their doc comments.
-/

/-- The apostrophe character, written via its code point. -/
def apos : String := String.singleton (Char.ofNat 39)

/-- The double-quote character. -/
def dquote : String := String.singleton (Char.ofNat 34)

/-- The backslash character. -/
def bslash : String := String.singleton (Char.ofNat 92)

/-- Opening curly brace as a string. -/
def lbrace : String := String.singleton (Char.ofNat 123)

/-- Closing curly brace as a string. -/
def rbrace : String := String.singleton (Char.ofNat 125)

/-- Lookup in a Python dict embedded as an ordered association list
(`d[k]` / `k in d`). -/
def pylookup (k : String) : List (String × α) → Option α
  | [] => none
  | p :: rest => if p.1 = k then some p.2 else pylookup k rest

/-- Python dict assignment `d[k] = v`: update in place when the key is
present, append otherwise (insertion order is preserved). -/
def dictSet (l : List (String × α)) (k : String) (v : α) : List (String × α) :=
  if (pylookup k l).isSome then
    l.map (fun p => if p.1 = k then (p.1, v) else p)
  else
    l ++ [(k, v)]

/-- Build a Python dict by inserting the given pairs in order into an
empty dict. -/
def dictOfList (l : List (String × α)) : List (String × α) :=
  l.foldl (fun acc p => dictSet acc p.1 p.2) []

/-- Python exception values, with the class distinguished.  `notFoundError`
does not occur in the sources; it is the error class named by the
specification and is present so that the specification's statements about
it can be expressed. -/
inductive PyErr where
  | valueError (msg : String)
  | notFoundError (msg : String)
  | keyError (key : String)
  | indexError (msg : String)
  | assertionError (msg : String)
  | graphRecursionError (msg : String)
  deriving DecidableEq, Repr

/-- Python `str(e)` on an exception value (for `KeyError`, `str` yields the
repr of the missing key, i.e. the key in quotes). -/
def PyErr.pyStr : PyErr → String
  | .valueError m => m
  | .notFoundError m => m
  | .keyError k => apos ++ k ++ apos
  | .indexError m => m
  | .assertionError m => m
  | .graphRecursionError m => m

/-- A langchain message, reduced to its role tag (`type`) and content. -/
structure Message where
  type : String
  content : String
  deriving DecidableEq, Repr

/-- The `SystemMessage` constructor. -/
def systemMessage (content : String) : Message :=
  ⟨"system", content⟩

/-- A pandas DataFrame, reduced to named columns of string cells; the
verified properties only distinguish presence from absence of a table. -/
structure DataFrame where
  columns : List String
  rows : List (List String)
  deriving DecidableEq, Repr

/-- The `ExecutionResult` pydantic model of `portus/agent/base_agent.py`. -/
structure ExecutionResult where
  text : String
  meta : Option (List (String × String))
  sql : Option String
  visualization_prompt : Option String
  df : Option DataFrame
  messages : Option (List Message)
  deriving DecidableEq, Repr

/-- One entry of the top-K most frequent values of a column. -/
structure TopKValuesElement where
  value : String
  frequency : Nat
  deriving DecidableEq, Repr

/-- The general per-column statistics returned by `retrieve_general_stats`
(the fields read by `_inspect_column_values`). -/
structure GeneralStats where
  n_unique : Nat
  unique_rate : ℚ
  deriving DecidableEq, Repr

/-- The `ColumnValuesStats` model: optional blocks of statistics merged by
`_inspect_column_values`.  The numeric and string statistic blocks are kept
opaque as named-rational dictionaries. -/
structure ColumnValuesStats where
  general : Option GeneralStats
  numeric_stats : Option (List (String × ℚ))
  string_stats : Option (List (String × ℚ))
  top_k_values_with_frequencies : Option (List TopKValuesElement)
  deriving DecidableEq, Repr

/-- The `ColumnValuesStats()` default: every block absent. -/
def ColumnValuesStats.empty : ColumnValuesStats :=
  ⟨none, none, none, none⟩

/-- The `ColumnSchema` model. -/
structure ColumnSchema where
  name : String
  dtype : String
  description : String
  values : List String
  value_stats : ColumnValuesStats
  deriving DecidableEq, Repr

/-- The `TableSchema` model; `columns` is a dict keyed by column name. -/
structure TableSchema where
  name : String
  schema_name : String
  description : String
  columns : List (String × ColumnSchema)
  deriving DecidableEq, Repr

/-- The `DatabaseSchema` model; `tables` is a dict keyed by table name. -/
structure DatabaseSchema where
  db_type : String
  name : String
  tables : List (String × TableSchema)
  deriving DecidableEq, Repr

/-- A raw physical table: its schema/namespace name and a dict from column
name to declared dtype (`inspect_database_schema` output). -/
structure RawTable where
  schema_name : String
  columns : List (String × String)
  deriving DecidableEq, Repr

/-- The raw physical schema: a dict from table name to `RawTable`. -/
structure RawSchema where
  tables : List (String × RawTable)
  deriving DecidableEq, Repr

/-- Well-formedness of a raw schema as produced from a live database:
table names are unique and so are the column names of each table. -/
def RawSchema.WF (raw : RawSchema) : Prop :=
  (raw.tables.map Prod.fst).Nodup ∧
    ∀ p ∈ raw.tables, (p.2.columns.map Prod.fst).Nodup

/-- The in-memory cache of `portus/caches/in_mem_cache.py`: a plain dict
from string keys to opaque byte-stream values (`V` stands for `BytesIO`). -/
structure InMemCache (V : Type) where
  cache : List (String × V)
  deriving DecidableEq, Repr

/-- The `InMemCache()` constructor: an empty dict. -/
def InMemCache.init : InMemCache V :=
  ⟨[]⟩

/-- The `put` method: `self._cache[k] = v`. -/
def InMemCache.put (c : InMemCache V) (k : String) (v : V) : InMemCache V :=
  ⟨dictSet c.cache k v⟩

/-- The `get` method: `return self._cache[k]`; Python dict subscription
raises `KeyError(k)` when the key is absent. -/
def InMemCache.get (c : InMemCache V) (k : String) : Except PyErr V :=
  match pylookup k c.cache with
  | some v => .ok v
  | none => .error (.keyError k)

/-- The state of `portus/core/data_engine.py`'s `DataEngine` that
`get_source_schema` touches: the dict of attached source names (the
`DataSource` objects themselves are identified by their names) and the
`_source_schemas` memo dict. -/
structure DataEngine (Config Schema : Type) where
  sources : List String
  source_schemas : List (String × Schema)
  deriving DecidableEq, Repr

/-- The `DataEngine.get_source_schema` method.  `self.sources[source]`
raises `KeyError` for an unknown source; `get_db_schema(ds, config)` is the
schema inspection of the named source under the given config and enters as
the function parameter `inspect`.  Returns the schema together with the
engine state after the call. -/
def DataEngine.get_source_schema (e : DataEngine Config Schema)
    (inspect : String → Config → Schema) (source : String) (cfg : Config) :
    Except PyErr (Schema × DataEngine Config Schema) :=
  if e.sources.contains source then
    match pylookup source e.source_schemas with
    | some s => .ok (s, e)
    | none =>
        let s := inspect source cfg
        .ok (s, { e with source_schemas := dictSet e.source_schemas source s })
  else
    .error (.keyError source)

/-- The `ValueSamplingStrategy` enumeration. -/
inductive ValueSamplingStrategy where
  | NONE
  | CATEGORICAL_ONLY
  | TOP_P
  deriving DecidableEq, Repr

/-- The `InspectionOptions` policy (fields as used by
`sqlalchemy_source.py` and listed in the specification); regex filters are
carried as their pattern strings, the uniqueness-rate bound as a rational. -/
structure InspectionOptions where
  value_sampling_strategy : ValueSamplingStrategy
  inspect_column_stats : Bool
  max_enum_values : Nat
  max_unique_rate : ℚ
  tables_regex : Option String
  columns_regex : Option String
  cache_intermediate_results : Bool
  deriving DecidableEq, Repr

/-- The dtype/name predicates imported from
`portus/data_source/database_types.py`, a module not among the sources;
they are pure functions of the declared dtype string (or the column name
for `is_id_column`) and enter the embedding as parameters. -/
structure DtypePredicates where
  is_low_cardinality_dtype : String → Bool
  is_string_dtype : String → Bool
  is_numeric_dtype : String → Bool
  is_datetime_dtype : String → Bool
  is_array_dtype : String → Bool
  is_aggregate_function : String → Bool
  is_id_column : String → Bool

/-- The profiling queries of `portus/data_source/sqlalchemy_utils.py`
(executed against the live backend, hence external): each is a pure
function of table name and column name for a fixed database state.
`distinct_values` additionally receives the fetch limit. -/
structure DBConn where
  general_stats : String → String → GeneralStats
  distinct_values : String → String → Nat → List String
  top_k_values : String → String → List TopKValuesElement
  numeric_stats : String → String → List (String × ℚ)
  string_stats : String → String → List (String × ℚ)

/-- Modelled from the spec: `format_values_list` of
`portus/data_source/database_schema.py` is not among the sources; the
specification says the fetched distinct values are truncated/formatted to
at most `max_enum_values` entries, which is modelled as truncation with
per-value formatting left as the identity. -/
def format_values_list (values : List String) (max_values : Nat) : List String :=
  values.take max_values

/-- The `SqlAlchemyDataSource._inspect_column_values` column profiling,
translated branch by branch; returns the low-cardinality values list and
the assembled `ColumnValuesStats`. -/
def inspectColumnValues (dp : DtypePredicates) (db : DBConn)
    (table_name col_name dtype : String) (options : InspectionOptions) :
    List String × ColumnValuesStats :=
  if options.value_sampling_strategy = .NONE ∧ options.inspect_column_stats = false then
    ([], ColumnValuesStats.empty)
  else
    let general_stats := db.general_stats table_name col_name
    let low_cardinality_values : List String :=
      if options.value_sampling_strategy = .CATEGORICAL_ONLY ∧
          ((dp.is_low_cardinality_dtype dtype = true ∨
            general_stats.n_unique < options.max_enum_values) ∧
            dp.is_string_dtype dtype = true) then
        format_values_list
          (db.distinct_values table_name col_name (options.max_enum_values + 1))
          options.max_enum_values
      else
        []
    let top_k_values : Option (List TopKValuesElement) :=
      if options.value_sampling_strategy = .TOP_P ∧
          ((dp.is_id_column col_name = false ∧
            dp.is_datetime_dtype dtype = false ∧
            dp.is_array_dtype dtype = false ∧
            dp.is_aggregate_function dtype = false ∧
            ¬ general_stats.unique_rate > options.max_unique_rate) ∨
            general_stats.n_unique < options.max_enum_values) then
        some (db.top_k_values table_name col_name)
      else
        none
    let numeric_stats : Option (List (String × ℚ)) :=
      if (dp.is_numeric_dtype dtype = true ∧ dp.is_id_column col_name = false) ∧
          options.inspect_column_stats = true then
        some (db.numeric_stats table_name col_name)
      else
        none
    let string_stats : Option (List (String × ℚ)) :=
      if dp.is_string_dtype dtype = true ∧ options.inspect_column_stats = true then
        some (db.string_stats table_name col_name)
      else
        none
    (low_cardinality_values,
      ⟨if options.inspect_column_stats then some general_stats else none,
        numeric_stats, string_stats, top_k_values⟩)

/-- Sequential effect of `asyncio.gather` over `Except`-valued tasks built
in list order: the first raised exception propagates, otherwise the list of
results in order. -/
def exceptMapM (f : α → Except ε β) : List α → Except ε (List β)
  | [] => .ok []
  | a :: rest =>
    match f a with
    | .error e => .error e
    | .ok b =>
      match exceptMapM f rest with
      | .error e => .error e
      | .ok bs => .ok (b :: bs)

/-- Join a list of strings with a separator (`sep.join(...)`). -/
def joinSep (sep : String) : List String → String
  | [] => ""
  | [a] => a
  | a :: b :: rest => a ++ sep ++ joinSep sep (b :: rest)

/-- Python `repr` of a list of strings, as interpolated into the
missing-column message (`['a', 'b']`). -/
def pyStrList (l : List String) : String :=
  "[" ++ joinSep ", " (l.map (fun s => apos ++ s ++ apos)) ++ "]"

/-- The message of the exception raised for a missing table:
`Table {table_name} doesn"t exist.` (with an apostrophe). -/
def tableMissingMsg (table_name : String) : String :=
  "Table " ++ table_name ++ " doesn" ++ apos ++ "t exist."

/-- The message of the exception raised for a missing column:
`Column {t}.{c} doesn"t exist. Available columns: {list}`. -/
def columnMissingMsg (table_name col_name : String) (available : List String) : String :=
  "Column " ++ table_name ++ "." ++ col_name ++ " doesn" ++ apos ++
    "t exist. Available columns: " ++ pyStrList available

/-- One entry of the semantic dict's `tables` mapping: the literal `"all"`,
the internal `"__all__"` marker used for regex-implied tables, or an
explicit selection `{description, columns}` with `columns` a dict from
column name to description. -/
inductive TableSelection where
  | all
  | impAll
  | explicitSel (description : String) (columns : List (String × String))
  deriving DecidableEq, Repr

/-- The `SemanticDict` argument: the literal `"full"` or an explicit
`{tables: ...}` mapping. -/
inductive SemanticDict where
  | full
  | tables (tables : List (String × TableSelection))
  deriving DecidableEq, Repr

/-- The first phase of `ainspect_schema` (lines 163-175): resolve `"full"`
into an all-tables selection, then add every physically present table
matching `tables_regex` as an `"__all__"` selection, never touching tables
already selected.  `re` is the fullmatch test of the compiled pattern
(Python's `re` module, external). -/
def resolveSemanticTables (re : String → String → Bool) (raw : RawSchema)
    (sd : SemanticDict) (options : InspectionOptions) :
    List (String × TableSelection) :=
  let st : List (String × TableSelection) :=
    match sd with
    | .full => raw.tables.map (fun p => (p.1, TableSelection.all))
    | .tables ts => ts
  match options.tables_regex with
  | none => st
  | some pat =>
    raw.tables.foldl (fun acc p =>
      if (pylookup p.1 acc).isSome then acc
      else if re pat p.1 then dictSet acc p.1 TableSelection.impAll
      else acc) st

/-- The per-table column-selection resolution of `process_table`
(lines 211-225): expand `"all"`/`"__all__"` into every raw column with an
empty description, then, unless the selection is the explicit `"all"`,
add every raw column matching `columns_regex`, skipping columns already
selected except under `"__all__"` where the (empty) description is
re-assigned. -/
def resolveColumns (re : String → String → Bool) (raw_table : RawTable)
    (sel : TableSelection) (options : InspectionOptions) :
    List (String × String) :=
  let base : List (String × String) :=
    match sel with
    | .all => raw_table.columns.map (fun p => (p.1, ""))
    | .impAll => raw_table.columns.map (fun p => (p.1, ""))
    | .explicitSel _ cols => cols
  match sel, options.columns_regex with
  | .all, _ => base
  | _, none => base
  | _, some pat =>
    raw_table.columns.foldl (fun acc p =>
      if sel ≠ TableSelection.impAll ∧ (pylookup p.1 acc).isSome then acc
      else if re pat p.1 then dictSet acc p.1 ""
      else acc) base

/-- The table description taken from the selection
(`semantic_table.get("description", "")`). -/
def selectionDescription : TableSelection → String
  | .all => ""
  | .impAll => ""
  | .explicitSel d _ => d

/-- The body of `process_column`/`process_table`'s per-column step
(lines 234-241 and 177-195, on the fresh-cache path where every
intermediate-cache lookup misses): validate the column against the raw
physical schema, raising the missing-column `ValueError`, then profile it
into a `ColumnSchema`. -/
def buildColumn (dp : DtypePredicates) (db : DBConn) (options : InspectionOptions)
    (table_name : String) (raw_columns : List (String × String))
    (p : String × String) : Except PyErr ColumnSchema :=
  match pylookup p.1 raw_columns with
  | none =>
    .error (.valueError (columnMissingMsg table_name p.1 (raw_columns.map Prod.fst)))
  | some dtype =>
    let r := inspectColumnValues dp db table_name p.1 dtype options
    .ok ⟨p.1, dtype, p.2, r.1, r.2⟩

/-- The `process_table` coroutine (lines 207-246): validate the table
against the raw physical schema, raising the missing-table `ValueError`,
resolve the column selection, process every selected column, and assemble
the `TableSchema` whose `columns` dict is keyed by column name. -/
def process_table (dp : DtypePredicates) (db : DBConn)
    (re : String → String → Bool) (raw : RawSchema)
    (options : InspectionOptions) (table_name : String)
    (sel : TableSelection) : Except PyErr TableSchema :=
  match pylookup table_name raw.tables with
  | none => .error (.valueError (tableMissingMsg table_name))
  | some raw_table =>
    match exceptMapM (buildColumn dp db options table_name raw_table.columns)
        (resolveColumns re raw_table sel options) with
    | .error e => .error e
    | .ok cols =>
      .ok ⟨table_name, raw_table.schema_name, selectionDescription sel,
        dictOfList (cols.map (fun c => (c.name, c)))⟩

/-- The `SqlAlchemyDataSource.ainspect_schema` method (lines 141-256) on
the fresh-intermediate-cache path, where a `DiskCache` lookup never hits
and therefore every column is computed exactly as without the cache; the
raw schema (`inspect_database_schema`) and the profiling queries enter as
parameters.  `db_type` and `name` come from the source's config. -/
def ainspect_schema (dp : DtypePredicates) (db : DBConn)
    (re : String → String → Bool) (db_type name : String) (raw : RawSchema)
    (sd : SemanticDict) (options : InspectionOptions) :
    Except PyErr DatabaseSchema :=
  let semantic_tables := resolveSemanticTables re raw sd options
  match exceptMapM (fun p => process_table dp db re raw options p.1 p.2)
      semantic_tables with
  | .error e => .error e
  | .ok tables =>
    .ok ⟨db_type, name, dictOfList (tables.map (fun t => (t.name, t)))⟩

/-- The outcome of iterating `compiled_graph.stream(...)`: the chunks the
stream yields in order, then optionally the exception it raises. -/
structure StreamRun (GState : Type) where
  chunks : List GState
  err : Option PyErr

/-- The `Graph` object consumed by `LighthouseAgent` (its implementation
lives behind the langgraph runtime, external to the embedded sources):
`init_state`, the compiled graph's `stream` (with the `RunnableConfig`
fixed by `execute`), and `get_result`. -/
structure Graph (GState : Type) where
  init_state : List Message → GState
  stream : GState → StreamRun GState
  get_result : GState → Except PyErr ExecutionResult

/-- The `LighthouseAgent` of
`portus/agent/lighthouse/lighthouse_agent.py`: its graph, the outcome of
`self._data_collection.inspect_schema("full", InspectionOptions())`, and
the rendered system prompt as a function of the inspected schema. -/
structure LighthouseAgent (GState : Type) where
  graph : Graph GState
  inspect_schema : Except PyErr DatabaseSchema
  render_system_prompt : DatabaseSchema → String

/-- Lines 47-48 of `execute` for a non-empty message list: prepend the
rendered system message unless one already leads the conversation. -/
def LighthouseAgent.prepped (a : LighthouseAgent GState)
    (db_schema : DatabaseSchema) (m : Message) (rest : List Message) :
    List Message :=
  if m.type ≠ "system" then
    systemMessage (a.render_system_prompt db_schema) :: m :: rest
  else
    m :: rest

/-- The `ExecutionResult` built by the `except` branch of `execute`:
`ExecutionResult(text=str(e), df=None, meta={}, sql="", messages=[])`. -/
def failedResult (e : PyErr) : ExecutionResult :=
  ⟨e.pyStr, some [], some "", none, none, some []⟩

/-- `LighthouseAgent.execute` (lines 43-64): inspect the schema (outside
the `try`, so a failure there propagates), read `messages[0]` (raising
`IndexError` on an empty list, also outside the `try`), prepend the system
prompt if needed, then drive the compiled graph's stream keeping the last
chunk; an exception from the stream is converted into the failed
`ExecutionResult`; afterwards `assert last_state is not None` and
`get_result` run outside any handler. -/
def LighthouseAgent.execute (a : LighthouseAgent GState)
    (messages : List Message) : Except PyErr ExecutionResult :=
  match a.inspect_schema with
  | .error e => .error e
  | .ok db_schema =>
    match messages with
    | [] => .error (.indexError "list index out of range")
    | m :: rest =>
      let run := a.graph.stream (a.graph.init_state (a.prepped db_schema m rest))
      match run.err with
      | some e => .ok (failedResult e)
      | none =>
        match run.chunks.getLast? with
        | none => .error (.assertionError "last_state is not None")
        | some last_state => a.graph.get_result last_state

/-- The action the reasoning oracle requests next, decoded at the oracle
boundary. -/
inductive OracleAction where
  | final_answer (text : String)
  | tool_call (query : String)
  deriving DecidableEq, Repr

/-- Modelled from the spec: the message of langgraph's
`GraphRecursionError`, raised when the graph runs for more steps than the
`recursion_limit` of its `RunnableConfig`. -/
def recursionLimitMsg : String :=
  "Recursion limit reached without hitting a stop condition."

/-- Modelled from the spec: the agent-loop state machine behind
`graph.compile()` (the graph's node code is not among the sources and the
langgraph runtime is external).  Per section 4.4 the loop alternates
between the reasoning oracle and the query tool, appending an assistant
message and a tool-result message per tool call, stops with the final
conversation when the oracle emits a final answer, and raises
`GraphRecursionError` when the iteration count exceeds the ceiling. -/
def runAgentLoop (oracle : List Message → OracleAction)
    (tool : String → String) : Nat → List Message → Except PyErr (List Message)
  | 0, _ => .error (.graphRecursionError recursionLimitMsg)
  | limit + 1, conv =>
    match oracle conv with
    | .final_answer t => .ok (conv ++ [⟨"ai", t⟩])
    | .tool_call q =>
      runAgentLoop oracle tool limit (conv ++ [⟨"ai", q⟩, ⟨"tool", tool q⟩])

/-- Modelled from the spec: the `stream` of the compiled agent-loop graph
under `recursion_limit=50`, as `execute` consumes it — the final state is
the last yielded chunk, and hitting the recursion ceiling raises. -/
def agentLoopStream (oracle : List Message → OracleAction)
    (tool : String → String) (s : List Message) : StreamRun (List Message) :=
  match runAgentLoop oracle tool 50 s with
  | .ok conv => ⟨[conv], none⟩
  | .error e => ⟨[], some e⟩

/-- Code-point lexicographic strict order on character lists, the order
Python's `sorted` uses on the (string) keys of a dict being JSON-encoded
with `sort_keys=True`. -/
def lexLt : List Char → List Char → Bool
  | [], [] => false
  | [], _ :: _ => true
  | _ :: _, [] => false
  | a :: as, b :: bs =>
    if a.toNat < b.toNat then true
    else if b.toNat < a.toNat then false
    else lexLt as bs

/-- Non-strict code-point order on strings. -/
def strLeb (a b : String) : Bool :=
  ! lexLt b.data a.data

/-- Insert a key-value pair into a key-sorted list (stable: an existing
equal key stays behind the inserted one only if it compared strictly
smaller; with the unique keys of a dict this is irrelevant). -/
def insertByKey (p : String × α) : List (String × α) → List (String × α)
  | [] => [p]
  | q :: rest =>
    if strLeb p.1 q.1 then p :: q :: rest
    else q :: insertByKey p rest

/-- Sort a key-value list by key in code-point order, as
`json.dumps(..., sort_keys=True)` orders the members of an object. -/
def sortByKey : List (String × α) → List (String × α)
  | [] => []
  | p :: rest => insertByKey p (sortByKey rest)

/-- JSON string escaping of the two always-escaped characters (quote and
backslash); the encoded dict keys and values here never contain control
characters. -/
def escapeChar (c : Char) : List Char :=
  if c = Char.ofNat 34 ∨ c = Char.ofNat 92 then [Char.ofNat 92, c] else [c]

/-- JSON encoding of a string value or object key. -/
def jStr (s : String) : String :=
  dquote ++ String.mk ((s.data.map escapeChar).flatten) ++ dquote

/-- JSON encoding of a boolean. -/
def jBool (b : Bool) : String :=
  if b then "true" else "false"

/-- JSON encoding of an optional string (`None` encodes as `null`). -/
def jOptStr : Option String → String
  | none => "null"
  | some s => jStr s

/-- Decimal digits of a natural number, most significant first. -/
def natEncode (n : Nat) : String :=
  if n = 0 then "0" else String.mk ((Nat.digits 10 n).reverse.map Nat.digitChar)

/-- Decimal encoding of an integer. -/
def intEncode : Int → String
  | .ofNat n => natEncode n
  | .negSucc n => "-" ++ natEncode (n + 1)

/-- Modelled from the spec: the JSON serialization of the float-valued
`max_unique_rate` policy field, embedded as a rational printed as an exact
fraction — the claims checked here never depend on its textual shape, only
on it being a function of the field value. -/
def ratEncode (q : ℚ) : String :=
  intEncode q.num ++ "/" ++ natEncode q.den

/-- Modelled from the spec: the serialized values of the
`ValueSamplingStrategy` enumeration (the enum's declaration is not among
the sources; only the distinctness of the three values matters here). -/
def ValueSamplingStrategy.dump : ValueSamplingStrategy → String
  | .NONE => jStr "none"
  | .CATEGORICAL_ONLY => jStr "categorical_only"
  | .TOP_P => jStr "top_p"

/-- Render a JSON object given its members with values already rendered:
sort the members by key and join them with the separators of
`json.dumps`'s default (`", "` and `": "`). -/
def jObj (entries : List (String × String)) : String :=
  lbrace ++
    joinSep ", " ((sortByKey entries).map (fun p => jStr p.1 ++ ": " ++ p.2)) ++
    rbrace

/-- Modelled from the spec: `InspectionOptions.model_dump_for_cache` is
declared in `schema_inspection_config.py`, which is not among the sources;
per the specification the policy serializes its seven fields
(value-sampling strategy, whether to compute column statistics, max
enumerable distinct-value count, max acceptable uniqueness rate, the two
optional regex filters, and the intermediate-persistence flag).  The dict
is given here with each field value already JSON-rendered; `jObj` applies
the key sorting of the canonical encoding. -/
def InspectionOptions.model_dump_for_cache (o : InspectionOptions) :
    List (String × String) :=
  [("value_sampling_strategy", o.value_sampling_strategy.dump),
   ("inspect_column_stats", jBool o.inspect_column_stats),
   ("max_enum_values", natEncode o.max_enum_values),
   ("max_unique_rate", ratEncode o.max_unique_rate),
   ("tables_regex", jOptStr o.tables_regex),
   ("columns_regex", jOptStr o.columns_regex),
   ("cache_intermediate_results", jBool o.cache_intermediate_results)]

/-- The JSON encoding of one table selection inside the semantic dict. -/
def TableSelection.dump : TableSelection → String
  | .all => jStr "all"
  | .impAll => jStr "__all__"
  | .explicitSel d cols =>
    jObj [("description", jStr d),
      ("columns", jObj (cols.map (fun p => (p.1, jStr p.2))))]

/-- The JSON encoding of the semantic dict argument. -/
def SemanticDict.dump : SemanticDict → String
  | .full => jStr "full"
  | .tables ts => jObj [("tables", jObj (ts.map (fun p => (p.1, p.2.dump))))]

/-- The `get_inspection_cache_key` function of
`portus/caching/schema_inspection_cache.py`:
`json.dumps(dict(semantic_dict=..., inspection_options=...), sort_keys=True)`,
with every object's keys sorted by the canonical encoding. -/
def get_inspection_cache_key (semantic_dict : SemanticDict)
    (inspection_options : InspectionOptions) : String :=
  jObj [("semantic_dict", semantic_dict.dump),
    ("inspection_options", jObj inspection_options.model_dump_for_cache)]

/-- Logical identity of two table selections: equal up to the order of the
column mapping. -/
inductive SelEquiv : TableSelection → TableSelection → Prop where
  | all : SelEquiv .all .all
  | impAll : SelEquiv .impAll .impAll
  | explicitSel (d : String) (c1 c2 : List (String × String)) :
      c1.Perm c2 → SelEquiv (.explicitSel d c1) (.explicitSel d c2)

/-- Logical identity of two `tables` mappings: a permutation matching
equal keys to logically identical selections. -/
def TablesEquiv (t1 t2 : List (String × TableSelection)) : Prop :=
  ∃ t, t1.Perm t ∧ List.Forall₂ (fun a b => a.1 = b.1 ∧ SelEquiv a.2 b.2) t t2

/-- Logical identity of two semantic dicts (same selections, internal
mappings possibly ordered differently). -/
inductive SemEquiv : SemanticDict → SemanticDict → Prop where
  | full : SemEquiv .full .full
  | tables (t1 t2 : List (String × TableSelection)) :
      TablesEquiv t1 t2 → SemEquiv (.tables t1) (.tables t2)

/-- Dict well-formedness of one table selection: unique column keys. -/
def SelWF : TableSelection → Prop
  | .explicitSel _ cols => (cols.map Prod.fst).Nodup
  | _ => True

/-- Dict well-formedness of a semantic dict: unique table keys, and
well-formed selections. -/
def SemWF : SemanticDict → Prop
  | .full => True
  | .tables ts => (ts.map Prod.fst).Nodup ∧ ∀ p ∈ ts, SelWF p.2


theorem pylookup_append (l1 l2 : List (String × α)) (k : String) :
    pylookup k (l1 ++ l2) =
      match pylookup k l1 with
      | some v => some v
      | none => pylookup k l2 := by
  induction l1 with
  | nil => rfl
  | cons p rest ih =>
    by_cases hp : p.1 = k
    · simp [pylookup, hp]
    · simp only [List.cons_append, pylookup, hp, if_false]
      exact ih

theorem pylookup_map_update_self (l : List (String × α)) (k : String) (v : α) :
    pylookup k (l.map (fun p => if p.1 = k then (p.1, v) else p)) =
      (pylookup k l).map (fun _ => v) := by
  induction l with
  | nil => rfl
  | cons p rest ih =>
    simp only [List.map_cons]
    by_cases hp : p.1 = k
    · rw [if_pos hp]
      simp [pylookup, hp]
    · rw [if_neg hp]
      simp only [pylookup, hp, if_false]
      exact ih

theorem pylookup_map_update_other (l : List (String × α)) (k k' : String) (v : α)
    (h : k' ≠ k) :
    pylookup k' (l.map (fun p => if p.1 = k then (p.1, v) else p)) =
      pylookup k' l := by
  induction l with
  | nil => rfl
  | cons p rest ih =>
    simp only [List.map_cons]
    by_cases hp : p.1 = k
    · rw [if_pos hp]
      have hp' : ¬ p.1 = k' := fun hc => h (hc ▸ hp)
      simp only [pylookup, hp', if_false]
      exact ih
    · rw [if_neg hp]
      by_cases hp' : p.1 = k'
      · simp [pylookup, hp']
      · simp only [pylookup, hp', if_false]
        exact ih

theorem pylookup_dictSet_self (l : List (String × α)) (k : String) (v : α) :
    pylookup k (dictSet l k v) = some v := by
  unfold dictSet
  by_cases h : (pylookup k l).isSome
  · rw [if_pos h, pylookup_map_update_self]
    obtain ⟨w, hw⟩ := Option.isSome_iff_exists.mp h
    rw [hw]
    rfl
  · rw [if_neg h, pylookup_append]
    have hnone : pylookup k l = none := Option.not_isSome_iff_eq_none.mp h
    rw [hnone]
    simp [pylookup]

theorem pylookup_dictSet_other (l : List (String × α)) (k k' : String) (v : α)
    (h : k' ≠ k) : pylookup k' (dictSet l k v) = pylookup k' l := by
  unfold dictSet
  by_cases hs : (pylookup k l).isSome
  · rw [if_pos hs, pylookup_map_update_other _ _ _ _ h]
  · rw [if_neg hs, pylookup_append]
    cases hc : pylookup k' l with
    | some w => rfl
    | none => simp [pylookup, Ne.symm h]

theorem mem_of_pylookup (l : List (String × α)) (k : String) (v : α)
    (h : pylookup k l = some v) : (k, v) ∈ l := by
  induction l with
  | nil => simp [pylookup] at h
  | cons p rest ih =>
    by_cases hp : p.1 = k
    · simp only [pylookup, hp, if_true, Option.some.injEq] at h
      obtain ⟨a, b⟩ := p
      simp only at hp h
      subst hp
      subst h
      exact List.mem_cons_self _ _
    · simp only [pylookup, hp, if_false] at h
      right
      exact ih h

theorem pylookup_eq_none_iff (l : List (String × α)) (k : String) :
    pylookup k l = none ↔ k ∉ l.map Prod.fst := by
  induction l with
  | nil => simp [pylookup]
  | cons p rest ih =>
    by_cases hp : p.1 = k
    · simp [pylookup, hp]
    · simp only [pylookup, hp, if_false, List.map_cons, List.mem_cons]
      rw [ih]
      constructor
      · rintro hn (hk | hk)
        · exact hp hk.symm
        · exact hn hk
      · intro hn hk
        exact hn (Or.inr hk)

theorem exceptMapM_ok_forall₂ {f : α → Except ε β} :
    ∀ {l : List α} {ys : List β}, exceptMapM f l = .ok ys →
      List.Forall₂ (fun a b => f a = .ok b) l ys := by
  intro l
  induction l with
  | nil =>
    intro ys h
    rw [exceptMapM] at h
    cases h
    exact .nil
  | cons a rest ih =>
    intro ys h
    rw [exceptMapM] at h
    cases hfa : f a with
    | error e => rw [hfa] at h; simp at h
    | ok b =>
      rw [hfa] at h
      cases hrest : exceptMapM f rest with
      | error e => rw [hrest] at h; simp at h
      | ok bs =>
        rw [hrest] at h
        simp only [Except.ok.injEq] at h
        subst h
        exact .cons hfa (ih hrest)

theorem exceptMapM_error_exists {f : α → Except ε β} :
    ∀ {l : List α} {e : ε}, exceptMapM f l = .error e →
      ∃ a ∈ l, f a = .error e := by
  intro l
  induction l with
  | nil =>
    intro e h
    rw [exceptMapM] at h
    cases h
  | cons a rest ih =>
    intro e h
    rw [exceptMapM] at h
    cases hfa : f a with
    | error e2 =>
      rw [hfa] at h
      simp only [Except.error.injEq] at h
      subst h
      exact ⟨a, List.mem_cons_self _ _, hfa⟩
    | ok b =>
      rw [hfa] at h
      cases hrest : exceptMapM f rest with
      | error e2 =>
        rw [hrest] at h
        simp only [Except.error.injEq] at h
        subst h
        obtain ⟨a2, ha2, hfa2⟩ := ih hrest
        exact ⟨a2, List.mem_cons_of_mem _ ha2, hfa2⟩
      | ok bs => rw [hrest] at h; simp at h

theorem forall₂_map_eq {R : α → β → Prop} {f : α → γ} {g : β → γ}
    (hfg : ∀ a b, R a b → g b = f a) :
    ∀ {l1 : List α} {l2 : List β}, List.Forall₂ R l1 l2 →
      l2.map g = l1.map f := by
  intro l1 l2 h
  induction h with
  | nil => rfl
  | cons hab _ ih => simp only [List.map_cons, ih, hfg _ _ hab]

/-- C6 (amended): on the in-memory cache, `put(k, v)` followed by `get(k)`
returns exactly `v`; `get` on a key that was never put raises `KeyError`
(the miss is signalled by the exception, not by a non-raising miss
value). -/
theorem C6_cache_round_trip (V : Type) (c : InMemCache V) (k : String) (v : V) :
    (c.put k v).get k = Except.ok v ∧
      (InMemCache.init : InMemCache V).get k =
        Except.error (PyErr.keyError k) := by
  constructor
  · unfold InMemCache.get InMemCache.put
    rw [pylookup_dictSet_self]
  · rfl

/-- C6 counterexample: the claim says `get` on a key that was never put
signals a miss without raising; on the empty cache `get "k"` instead
raises `KeyError("k")`. -/
theorem C6_counterexample :
    (InMemCache.init : InMemCache Nat).get "k" =
      Except.error (PyErr.keyError "k") := rfl

/-- C9: `DataEngine.get_source_schema` memoizes per source name only —
after a first call returned a schema for a source, any further call for
that source returns the same schema and leaves the engine unchanged, for
any inspection config and indeed any inspection function, so inspection is
not consulted again. -/
theorem C9_schema_memoized_by_name_only (Config Schema : Type)
    (e : DataEngine Config Schema)
    (inspect1 inspect2 : String → Config → Schema) (source : String)
    (cfg1 cfg2 : Config) (s1 : Schema) (e1 : DataEngine Config Schema)
    (h : e.get_source_schema inspect1 source cfg1 = .ok (s1, e1)) :
    e1.get_source_schema inspect2 source cfg2 = .ok (s1, e1) := by
  unfold DataEngine.get_source_schema at h ⊢
  by_cases hc : e.sources.contains source
  · rw [if_pos hc] at h
    cases hl : pylookup source e.source_schemas with
    | some s =>
      rw [hl] at h
      simp only [Except.ok.injEq, Prod.mk.injEq] at h
      obtain ⟨hs, he⟩ := h
      subst hs
      subst he
      rw [if_pos hc, hl]
    | none =>
      rw [hl] at h
      simp only [Except.ok.injEq, Prod.mk.injEq] at h
      obtain ⟨hs, he⟩ := h
      subst hs
      subst he
      dsimp only
      rw [if_pos hc, pylookup_dictSet_self]
  · rw [if_neg hc] at h
    cases h

/-- C9 witness: one engine with a single source, inspected once and then
asked again with a different config and a conflicting inspection
function. -/
theorem C9_schema_memoized_witness :
    DataEngine.get_source_schema
        (DataEngine.mk ["s"] [("s", "sch")] : DataEngine Nat String)
        (fun _ _ => "other") "s" 1 =
      .ok ("sch", DataEngine.mk ["s"] [("s", "sch")]) :=
  C9_schema_memoized_by_name_only Nat String
    (DataEngine.mk ["s"] []) (fun _ _ => "sch") (fun _ _ => "other")
    "s" 0 1 "sch" (DataEngine.mk ["s"] [("s", "sch")]) rfl

/-- C10: `LighthouseAgent.execute` reads `messages[0]` before entering its
exception-guarded streaming loop, so with an empty message list (and
schema inspection succeeding) the `IndexError` propagates to the
caller. -/
theorem C10_empty_messages_raises (GState : Type) (g : Graph GState)
    (render : DatabaseSchema → String) (schema : DatabaseSchema) :
    (LighthouseAgent.mk g (.ok schema) render).execute [] =
      Except.error (PyErr.indexError "list index out of range") := rfl

/-- C1: whenever the compiled graph's stream raises (oracle call, tool
call, graph execution all happen inside it), `execute` on a non-empty
conversation returns `Ok` of the failed `ExecutionResult`: text is the
stringified exception, the table is `None` and the code field is empty. -/
theorem C1_stream_exception_returns_failed_result (GState : Type)
    (g : Graph GState) (render : DatabaseSchema → String)
    (schema : DatabaseSchema) (m : Message) (rest : List Message) (e : PyErr)
    (h : (g.stream (g.init_state
        ((LighthouseAgent.mk g (.ok schema) render).prepped schema m
          rest))).err = some e) :
    (LighthouseAgent.mk g (.ok schema) render).execute (m :: rest) =
      Except.ok (failedResult e) ∧
      (failedResult e).text = e.pyStr ∧ (failedResult e).df = none ∧
      (failedResult e).sql = some "" := by
  refine ⟨?_, rfl, rfl, rfl⟩
  unfold LighthouseAgent.execute
  dsimp only
  rw [h]

/-- C1 witness: a graph whose stream raises `ValueError("boom")` yields
the failed result. -/
theorem C1_witness :
    (LighthouseAgent.mk
      (⟨fun _ => 0, fun _ => ⟨[], some (PyErr.valueError "boom")⟩,
        fun _ => Except.error (PyErr.assertionError "")⟩ : Graph Nat)
      (.ok ⟨"duckdb", "c", []⟩) (fun _ => "p")).execute [⟨"human", "q"⟩] =
      Except.ok (failedResult (PyErr.valueError "boom")) :=
  (C1_stream_exception_returns_failed_result Nat _ _ _ _ _ _ rfl).1

theorem runAgentLoop_always_tool (f : List Message → String)
    (tool : String → String) :
    ∀ (n : Nat) (s : List Message),
      runAgentLoop (fun c => .tool_call (f c)) tool n s =
        .error (.graphRecursionError recursionLimitMsg) := by
  intro n
  induction n with
  | zero => intro s; rfl
  | succ k ih =>
    intro s
    rw [runAgentLoop]
    exact ih _

/-- C8: with a reasoning oracle that always requests another tool call,
the agent loop stops at the fixed recursion ceiling of 50 with a
`GraphRecursionError`, and `execute` converts it into the FAILED-shaped
result (stringified failure text, empty table and code) instead of looping
forever. -/
theorem C8_loop_terminates_at_ceiling (f : List Message → String)
    (tool : String → String) (init : List Message → List Message)
    (getRes : List Message → Except PyErr ExecutionResult)
    (render : DatabaseSchema → String) (schema : DatabaseSchema)
    (m : Message) (rest : List Message) (s : List Message) :
    runAgentLoop (fun c => .tool_call (f c)) tool 50 s =
      .error (.graphRecursionError recursionLimitMsg) ∧
    (LighthouseAgent.mk
        ⟨init, agentLoopStream (fun c => .tool_call (f c)) tool, getRes⟩
        (.ok schema) render).execute (m :: rest) =
      .ok (failedResult (.graphRecursionError recursionLimitMsg)) ∧
    (failedResult (PyErr.graphRecursionError recursionLimitMsg)).text =
      (PyErr.graphRecursionError recursionLimitMsg).pyStr ∧
    (failedResult (PyErr.graphRecursionError recursionLimitMsg)).df = none ∧
    (failedResult (PyErr.graphRecursionError recursionLimitMsg)).sql =
      some "" := by
  refine ⟨runAgentLoop_always_tool f tool 50 s, ?_, rfl, rfl, rfl⟩
  unfold LighthouseAgent.execute
  dsimp only
  unfold agentLoopStream
  rw [runAgentLoop_always_tool]

/-- C3: value-sampling mutual exclusion in `_inspect_column_values`.
Under `CATEGORICAL_ONLY`, a string column with distinct count at least
`max_enum_values` whose dtype is not flagged low-cardinality yields an
empty distinct-values list; under `TOP_P`, an identifier-like column
yields no top-K values unless the cardinality safety override
(distinct count below `max_enum_values`) triggers. -/
theorem C3_sampling_mutual_exclusion (dp : DtypePredicates) (db : DBConn)
    (t c dtype : String) (o : InspectionOptions) :
    (o.value_sampling_strategy = .CATEGORICAL_ONLY →
      dp.is_string_dtype dtype = true →
      dp.is_low_cardinality_dtype dtype = false →
      o.max_enum_values ≤ (db.general_stats t c).n_unique →
      (inspectColumnValues dp db t c dtype o).1 = []) ∧
    (o.value_sampling_strategy = .TOP_P →
      dp.is_id_column c = true →
      o.max_enum_values ≤ (db.general_stats t c).n_unique →
      (inspectColumnValues dp db t c dtype
        o).2.top_k_values_with_frequencies = none) := by
  constructor
  · intro hstrat hstr hlow hmax
    simp [inspectColumnValues, hstrat, hstr, hlow, Nat.not_lt.mpr hmax]
  · intro hstrat hid hmax
    simp [inspectColumnValues, hstrat, hid, Nat.not_lt.mpr hmax]

/-- C3 witness: a concrete high-cardinality string column under
`CATEGORICAL_ONLY` and a concrete id-like column under `TOP_P`, both with
distinct count 5 against `max_enum_values = 2`. -/
theorem C3_sampling_witness :
    (inspectColumnValues
      ⟨fun _ => false, fun _ => true, fun _ => false, fun _ => false,
        fun _ => false, fun _ => false, fun _ => true⟩
      ⟨fun _ _ => ⟨5, 1⟩, fun _ _ _ => ["a"], fun _ _ => [],
        fun _ _ => [], fun _ _ => []⟩
      "t" "user_id" "varchar"
      ⟨.CATEGORICAL_ONLY, true, 2, 1, none, none, false⟩).1 = [] ∧
    (inspectColumnValues
      ⟨fun _ => false, fun _ => true, fun _ => false, fun _ => false,
        fun _ => false, fun _ => false, fun _ => true⟩
      ⟨fun _ _ => ⟨5, 1⟩, fun _ _ _ => ["a"], fun _ _ => [],
        fun _ _ => [], fun _ _ => []⟩
      "t" "user_id" "varchar"
      ⟨.TOP_P, true, 2, 1, none, none,
        false⟩).2.top_k_values_with_frequencies = none :=
  ⟨(C3_sampling_mutual_exclusion _ _ _ _ _ _).1 rfl rfl rfl (by norm_num),
   (C3_sampling_mutual_exclusion _ _ _ _ _ _).2 rfl rfl (by norm_num)⟩

theorem pylookup_isSome_of_mem (l : List (String × α)) (k : String) (v : α)
    (h : (k, v) ∈ l) : (pylookup k l).isSome := by
  induction l with
  | nil => simp at h
  | cons p rest ih =>
    rcases List.mem_cons.mp h with hh | ht
    · rw [← hh]
      simp [pylookup]
    · by_cases hp : p.1 = k
      · simp [pylookup, hp]
      · simp only [pylookup, hp, if_false]
        exact ih ht

theorem pylookup_of_mem_nodup (l : List (String × α)) (k : String) (v : α)
    (hnd : (l.map Prod.fst).Nodup) (h : (k, v) ∈ l) : pylookup k l = some v := by
  induction l with
  | nil => simp at h
  | cons p rest ih =>
    simp only [List.map_cons, List.nodup_cons] at hnd
    rcases List.mem_cons.mp h with hh | ht
    · rw [← hh]
      simp [pylookup]
    · have hp : ¬ p.1 = k := by
        intro hk
        exact hnd.1 (hk ▸ (List.mem_map_of_mem Prod.fst ht))
      simp only [pylookup, hp, if_false]
      exact ih hnd.2 ht

theorem pylookup_map_const (l : List (String × α)) (k : String) (c : β) :
    pylookup k (l.map (fun p => (p.1, c))) = (pylookup k l).map (fun _ => c) := by
  induction l with
  | nil => rfl
  | cons p rest ih =>
    by_cases hp : p.1 = k
    · simp [pylookup, hp]
    · simp only [List.map_cons, pylookup, hp, if_false]
      exact ih

theorem exceptMapM_ok_of_forall {f : α → Except ε β} :
    ∀ {l : List α}, (∀ a ∈ l, ∃ b, f a = .ok b) →
      ∃ ys, exceptMapM f l = .ok ys := by
  intro l
  induction l with
  | nil => intro _; exact ⟨[], rfl⟩
  | cons a rest ih =>
    intro h
    obtain ⟨b, hb⟩ := h a (List.mem_cons_self _ _)
    obtain ⟨bs, hbs⟩ := ih (fun a2 ha2 => h a2 (List.mem_cons_of_mem _ ha2))
    refine ⟨b :: bs, ?_⟩
    rw [exceptMapM, hb, hbs]

theorem forall₂_mem_left {R : α → β → Prop} :
    ∀ {l1 : List α} {l2 : List β}, List.Forall₂ R l1 l2 → ∀ a ∈ l1,
      ∃ b ∈ l2, R a b := by
  intro l1 l2 h
  induction h with
  | nil => intro a ha; simp at ha
  | cons hab hrest ih =>
    intro a ha
    rcases List.mem_cons.mp ha with hh | ht
    · subst hh
      exact ⟨_, List.mem_cons_self _ _, hab⟩
    · obtain ⟨b, hb, hr⟩ := ih a ht
      exact ⟨b, List.mem_cons_of_mem _ hb, hr⟩

theorem pylookup_foldl_preserved {γ : Type}
    (step : List (String × α) → γ → List (String × α))
    (hstep : ∀ acc p k w, pylookup k acc = some w →
      pylookup k (step acc p) = some w) :
    ∀ (l : List γ) (acc : List (String × α)) (k : String) (w : α),
      pylookup k acc = some w → pylookup k (l.foldl step acc) = some w := by
  intro l
  induction l with
  | nil => intro acc k w h; exact h
  | cons p rest ih =>
    intro acc k w h
    rw [List.foldl_cons]
    exact ih _ _ _ (hstep _ _ _ _ h)

theorem keys_foldl_nodup {γ : Type}
    (step : List (String × α) → γ → List (String × α))
    (hstep : ∀ acc p, ((acc.map Prod.fst).Nodup →
      ((step acc p).map Prod.fst).Nodup)) :
    ∀ (l : List γ) (acc : List (String × α)),
      (acc.map Prod.fst).Nodup → ((l.foldl step acc).map Prod.fst).Nodup := by
  intro l
  induction l with
  | nil => intro acc h; exact h
  | cons p rest ih =>
    intro acc h
    rw [List.foldl_cons]
    exact ih _ (hstep _ _ h)

theorem dictSet_fresh_keys_nodup (l : List (String × α)) (k : String) (v : α)
    (hmiss : pylookup k l = none) (hnd : (l.map Prod.fst).Nodup) :
    ((dictSet l k v).map Prod.fst).Nodup := by
  unfold dictSet
  rw [hmiss]
  simp only [Option.isSome_none, Bool.false_eq_true, if_false, List.map_append]
  rw [List.nodup_append]
  refine ⟨hnd, by simp, ?_⟩
  intro a ha
  simp only [List.map_cons, List.map_nil, List.mem_singleton]
  intro hk
  subst hk
  exact (pylookup_eq_none_iff l a).mp hmiss ha

theorem foldl_dictSet_append :
    ∀ (l acc : List (String × α)),
      (∀ k ∈ l.map Prod.fst, pylookup k acc = none) →
      (l.map Prod.fst).Nodup →
      l.foldl (fun acc p => dictSet acc p.1 p.2) acc = acc ++ l := by
  intro l
  induction l with
  | nil => intro acc _ _; simp
  | cons p rest ih =>
    intro acc hmiss hnd
    rw [List.foldl_cons]
    have hpm : pylookup p.1 acc = none :=
      hmiss p.1 (by simp)
    have hset : dictSet acc p.1 p.2 = acc ++ [p] := by
      unfold dictSet
      rw [hpm]
      simp
    rw [hset]
    simp only [List.map_cons, List.nodup_cons] at hnd
    have hmiss2 : ∀ k ∈ rest.map Prod.fst, pylookup k (acc ++ [p]) = none := by
      intro k hk
      rw [pylookup_append]
      rw [hmiss k (by simp [hk])]
      have hne : ¬ p.1 = k := fun hc => hnd.1 (hc ▸ hk)
      simp [pylookup, hne]
    rw [ih _ hmiss2 hnd.2, List.append_assoc]
    rfl

theorem dictOfList_eq_self (l : List (String × α))
    (hnd : (l.map Prod.fst).Nodup) : dictOfList l = l := by
  unfold dictOfList
  rw [foldl_dictSet_append l [] (fun k _ => rfl) hnd]
  simp

theorem regex_skip_fold_noop {γ : Type} (cond : String → Bool) (newv : α) :
    ∀ (l : List (String × γ)) (acc : List (String × α)),
      (∀ p ∈ l, (pylookup p.1 acc).isSome) →
      l.foldl (fun acc2 p => if (pylookup p.1 acc2).isSome then acc2
        else if cond p.1 then dictSet acc2 p.1 newv else acc2) acc = acc := by
  intro l
  induction l with
  | nil => intro acc _; rfl
  | cons p rest ih =>
    intro acc h
    rw [List.foldl_cons, if_pos (h p (List.mem_cons_self _ _))]
    exact ih _ (fun q hq => h q (List.mem_cons_of_mem _ hq))

theorem resolve_preserves_explicit (re : String → String → Bool)
    (raw : RawSchema) (ts : List (String × TableSelection))
    (o : InspectionOptions) (t : String) (sel : TableSelection)
    (h : pylookup t ts = some sel) :
    pylookup t (resolveSemanticTables re raw (.tables ts) o) = some sel := by
  unfold resolveSemanticTables
  dsimp only
  cases hreg : o.tables_regex with
  | none => exact h
  | some pat =>
    refine pylookup_foldl_preserved _ ?_ _ _ _ _ h
    intro acc p k w hw
    by_cases hs : (pylookup p.1 acc).isSome
    · rw [if_pos hs]
      exact hw
    · rw [if_neg hs]
      by_cases hc : re pat p.1
      · rw [if_pos hc]
        have hne : k ≠ p.1 := by
          intro hk
          subst hk
          rw [hw] at hs
          simp at hs
        rw [pylookup_dictSet_other _ _ _ _ hne]
        exact hw
      · rw [if_neg hc]
        exact hw

theorem resolve_full (re : String → String → Bool) (raw : RawSchema)
    (o : InspectionOptions) :
    resolveSemanticTables re raw .full o =
      raw.tables.map (fun p => (p.1, TableSelection.all)) := by
  unfold resolveSemanticTables
  dsimp only
  cases hreg : o.tables_regex with
  | none => rfl
  | some pat =>
    apply regex_skip_fold_noop
    intro p hp
    rw [pylookup_map_const]
    have := pylookup_isSome_of_mem _ _ p.2 hp
    cases hc : pylookup p.1 raw.tables with
    | none => rw [hc] at this; simp at this
    | some w => rfl

theorem buildColumn_ok_shape (dp : DtypePredicates) (db : DBConn)
    (o : InspectionOptions) (t : String) (rawcols : List (String × String))
    (p : String × String) (b : ColumnSchema)
    (h : buildColumn dp db o t rawcols p = .ok b) :
    ∃ dtype, pylookup p.1 rawcols = some dtype ∧
      b = ⟨p.1, dtype, p.2, (inspectColumnValues dp db t p.1 dtype o).1,
        (inspectColumnValues dp db t p.1 dtype o).2⟩ := by
  unfold buildColumn at h
  cases hc : pylookup p.1 rawcols with
  | none => rw [hc] at h; cases h
  | some dtype =>
    rw [hc] at h
    simp only [Except.ok.injEq] at h
    exact ⟨dtype, rfl, h.symm⟩

theorem buildColumn_error_shape (dp : DtypePredicates) (db : DBConn)
    (o : InspectionOptions) (t : String) (rawcols : List (String × String))
    (p : String × String) (e : PyErr)
    (h : buildColumn dp db o t rawcols p = .error e) :
    pylookup p.1 rawcols = none ∧
      e = .valueError (columnMissingMsg t p.1 (rawcols.map Prod.fst)) := by
  unfold buildColumn at h
  cases hc : pylookup p.1 rawcols with
  | none =>
    rw [hc] at h
    simp only [Except.error.injEq] at h
    exact ⟨rfl, h.symm⟩
  | some dtype => rw [hc] at h; cases h

theorem process_table_ok_shape (dp : DtypePredicates) (db : DBConn)
    (re : String → String → Bool) (raw : RawSchema) (o : InspectionOptions)
    (t : String) (sel : TableSelection) (tS : TableSchema)
    (h : process_table dp db re raw o t sel = .ok tS) :
    ∃ rt cols, pylookup t raw.tables = some rt ∧
      exceptMapM (buildColumn dp db o t rt.columns)
        (resolveColumns re rt sel o) = .ok cols ∧
      tS = ⟨t, rt.schema_name, selectionDescription sel,
        dictOfList (cols.map (fun c => (c.name, c)))⟩ := by
  unfold process_table at h
  cases hr : pylookup t raw.tables with
  | none => rw [hr] at h; cases h
  | some rt =>
    rw [hr] at h
    dsimp only at h
    cases hm : exceptMapM (buildColumn dp db o t rt.columns)
        (resolveColumns re rt sel o) with
    | error e => rw [hm] at h; cases h
    | ok cols =>
      rw [hm] at h
      simp only [Except.ok.injEq] at h
      exact ⟨rt, cols, rfl, hm, h.symm⟩

theorem process_table_error_shape (dp : DtypePredicates) (db : DBConn)
    (re : String → String → Bool) (raw : RawSchema) (o : InspectionOptions)
    (t : String) (sel : TableSelection) (e : PyErr)
    (h : process_table dp db re raw o t sel = .error e) :
    (pylookup t raw.tables = none ∧ e = .valueError (tableMissingMsg t)) ∨
    (∃ rt c desc, pylookup t raw.tables = some rt ∧
      (c, desc) ∈ resolveColumns re rt sel o ∧
      pylookup c rt.columns = none ∧
      e = .valueError (columnMissingMsg t c (rt.columns.map Prod.fst))) := by
  unfold process_table at h
  cases hr : pylookup t raw.tables with
  | none =>
    rw [hr] at h
    simp only [Except.error.injEq] at h
    exact Or.inl ⟨rfl, h.symm⟩
  | some rt =>
    rw [hr] at h
    dsimp only at h
    cases hm : exceptMapM (buildColumn dp db o t rt.columns)
        (resolveColumns re rt sel o) with
    | error e2 =>
      rw [hm] at h
      simp only [Except.error.injEq] at h
      subst h
      obtain ⟨p, hp, hpe⟩ := exceptMapM_error_exists hm
      obtain ⟨hmiss, hmsg⟩ := buildColumn_error_shape _ _ _ _ _ _ _ hpe
      exact Or.inr ⟨rt, p.1, p.2, rfl, hp, hmiss, hmsg⟩
    | ok cols => rw [hm] at h; cases h

theorem process_table_all_ok (dp : DtypePredicates) (db : DBConn)
    (re : String → String → Bool) (raw : RawSchema) (o : InspectionOptions)
    (t : String) (rt : RawTable)
    (hrt : pylookup t raw.tables = some rt)
    (hnd : (rt.columns.map Prod.fst).Nodup) :
    ∃ tS, process_table dp db re raw o t .all = .ok tS ∧ tS.name = t ∧
      tS.columns.map Prod.fst = rt.columns.map Prod.fst := by
  have hres : resolveColumns re rt .all o =
      rt.columns.map (fun p => (p.1, "")) := by
    unfold resolveColumns
    cases o.columns_regex <;> rfl
  have hok : ∀ p ∈ resolveColumns re rt .all o, ∃ b,
      buildColumn dp db o t rt.columns p = .ok b := by
    intro p hp
    rw [hres] at hp
    obtain ⟨q, hq, hqe⟩ := List.mem_map.mp hp
    have hsome : (pylookup p.1 rt.columns).isSome := by
      rw [← hqe]
      exact pylookup_isSome_of_mem _ _ q.2 hq
    obtain ⟨dtype, hd⟩ := Option.isSome_iff_exists.mp hsome
    refine ⟨⟨p.1, dtype, p.2, (inspectColumnValues dp db t p.1 dtype o).1,
      (inspectColumnValues dp db t p.1 dtype o).2⟩, ?_⟩
    unfold buildColumn
    rw [hd]
  obtain ⟨cols, hcols⟩ := exceptMapM_ok_of_forall hok
  have hf₂ := exceptMapM_ok_forall₂ hcols
  have hnames : cols.map ColumnSchema.name =
      (resolveColumns re rt .all o).map Prod.fst := by
    apply forall₂_map_eq _ hf₂
    intro a b hab
    obtain ⟨dtype, _, hb⟩ := buildColumn_ok_shape _ _ _ _ _ _ _ hab
    rw [hb]
  have hkeys : (cols.map (fun c => (c.name, c))).map Prod.fst =
      rt.columns.map Prod.fst := by
    rw [List.map_map]
    have : (Prod.fst ∘ fun c : ColumnSchema => (c.name, c)) =
        ColumnSchema.name := rfl
    rw [this, hnames, hres, List.map_map]
    rfl
  refine ⟨⟨t, rt.schema_name, selectionDescription .all,
    dictOfList (cols.map (fun c => (c.name, c)))⟩, ?_, rfl, ?_⟩
  · unfold process_table
    rw [hrt]
    dsimp only
    rw [hcols]
  · rw [dictOfList_eq_self _ (by rw [hkeys]; exact hnd)]
    exact hkeys

theorem process_table_ok_name (dp : DtypePredicates) (db : DBConn)
    (re : String → String → Bool) (raw : RawSchema) (o : InspectionOptions)
    (t : String) (sel : TableSelection) (tS : TableSchema)
    (h : process_table dp db re raw o t sel = .ok tS) : tS.name = t := by
  obtain ⟨rt, cols, _, _, hshape⟩ := process_table_ok_shape _ _ _ _ _ _ _ _ h
  rw [hshape]

theorem ainspect_ok_shape (dp : DtypePredicates) (db : DBConn)
    (re : String → String → Bool) (dbt nm : String) (raw : RawSchema)
    (sd : SemanticDict) (o : InspectionOptions) (schema : DatabaseSchema)
    (h : ainspect_schema dp db re dbt nm raw sd o = .ok schema) :
    ∃ tables, exceptMapM (fun p => process_table dp db re raw o p.1 p.2)
        (resolveSemanticTables re raw sd o) = .ok tables ∧
      schema = ⟨dbt, nm, dictOfList (tables.map (fun t => (t.name, t)))⟩ := by
  unfold ainspect_schema at h
  dsimp only at h
  cases hm : exceptMapM (fun p => process_table dp db re raw o p.1 p.2)
      (resolveSemanticTables re raw sd o) with
  | error e => rw [hm] at h; cases h
  | ok tables =>
    rw [hm] at h
    simp only [Except.ok.injEq] at h
    exact ⟨tables, rfl, h.symm⟩

theorem ainspect_error_shape (dp : DtypePredicates) (db : DBConn)
    (re : String → String → Bool) (dbt nm : String) (raw : RawSchema)
    (sd : SemanticDict) (o : InspectionOptions) (e : PyErr)
    (h : ainspect_schema dp db re dbt nm raw sd o = .error e) :
    ∃ p ∈ resolveSemanticTables re raw sd o,
      process_table dp db re raw o p.1 p.2 = .error e := by
  unfold ainspect_schema at h
  dsimp only at h
  cases hm : exceptMapM (fun p => process_table dp db re raw o p.1 p.2)
      (resolveSemanticTables re raw sd o) with
  | error e2 =>
    rw [hm] at h
    simp only [Except.error.injEq] at h
    subst h
    exact exceptMapM_error_exists hm
  | ok tables => rw [hm] at h; cases h

theorem resolve_keys_nodup (re : String → String → Bool) (raw : RawSchema)
    (ts : List (String × TableSelection)) (o : InspectionOptions)
    (hnd : (ts.map Prod.fst).Nodup) :
    ((resolveSemanticTables re raw (.tables ts) o).map Prod.fst).Nodup := by
  unfold resolveSemanticTables
  dsimp only
  cases hreg : o.tables_regex with
  | none => exact hnd
  | some pat =>
    refine keys_foldl_nodup _ ?_ _ _ hnd
    intro acc p hacc
    by_cases hs : (pylookup p.1 acc).isSome
    · rw [if_pos hs]
      exact hacc
    · rw [if_neg hs]
      by_cases hc : re pat p.1
      · rw [if_pos hc]
        exact dictSet_fresh_keys_nodup _ _ _
          (Option.not_isSome_iff_eq_none.mp hs) hacc
      · rw [if_neg hc]
        exact hacc

theorem ainspect_lookup_all (dp : DtypePredicates) (db : DBConn)
    (re : String → String → Bool) (dbt nm : String) (raw : RawSchema)
    (sd : SemanticDict) (o : InspectionOptions) (schema : DatabaseSchema)
    (t : String)
    (hschema : ainspect_schema dp db re dbt nm raw sd o = .ok schema)
    (hnd : ((resolveSemanticTables re raw sd o).map Prod.fst).Nodup)
    (hsel : pylookup t (resolveSemanticTables re raw sd o) = some .all)
    (hrtnd : ∀ rt, pylookup t raw.tables = some rt →
      (rt.columns.map Prod.fst).Nodup) :
    ∃ rt tS, pylookup t raw.tables = some rt ∧
      pylookup t schema.tables = some tS ∧
      tS.columns.map Prod.fst = rt.columns.map Prod.fst := by
  obtain ⟨tables, hm, hsch⟩ :=
    ainspect_ok_shape _ _ _ _ _ _ _ _ _ hschema
  have hf₂ := exceptMapM_ok_forall₂ hm
  have hmem := mem_of_pylookup _ _ _ hsel
  obtain ⟨tS, htS, hproc⟩ := forall₂_mem_left hf₂ (t, .all) hmem
  obtain ⟨rt, cols, hrt, _, _⟩ :=
    process_table_ok_shape _ _ _ _ _ _ _ _ hproc
  obtain ⟨tS', hproc', hname, hcols⟩ :=
    process_table_all_ok dp db re raw o t rt hrt (hrtnd rt hrt)
  have heq : tS = tS' := by
    rw [hproc] at hproc'
    injection hproc'
  subst heq
  have hknames : tables.map TableSchema.name =
      (resolveSemanticTables re raw sd o).map Prod.fst := by
    apply forall₂_map_eq _ hf₂
    intro a b hab
    exact process_table_ok_name _ _ _ _ _ _ _ _ hab
  have houtkeys : (tables.map (fun ts2 => (ts2.name, ts2))).map Prod.fst =
      tables.map TableSchema.name := by
    rw [List.map_map]
    rfl
  have hnd2 : ((tables.map (fun ts2 => (ts2.name, ts2))).map Prod.fst).Nodup := by
    rw [houtkeys, hknames]
    exact hnd
  have hmem2 : (t, tS) ∈ tables.map (fun ts2 => (ts2.name, ts2)) := by
    rw [← hname]
    exact List.mem_map_of_mem _ htS
  refine ⟨rt, tS, hrt, ?_, hcols⟩
  rw [hsch]
  dsimp only
  rw [dictOfList_eq_self _ hnd2]
  exact pylookup_of_mem_nodup _ _ _ hnd2 hmem2

/-- C4: schema selection completeness.  For a semantic dict whose entry
for table T is the explicit selection `"all"` — and, when the semantic
dict is the literal `"full"`, for every physically present table — a
successful inspection returns a `DatabaseSchema` whose entry for T has
exactly the columns of T's raw physical schema (same keys, same order). -/
theorem C4_selection_completeness (dp : DtypePredicates) (db : DBConn)
    (re : String → String → Bool) (dbt nm : String) (raw : RawSchema)
    (o : InspectionOptions) :
    (∀ (ts : List (String × TableSelection)) (schema : DatabaseSchema)
      (T : String),
      (ts.map Prod.fst).Nodup → raw.WF →
      pylookup T ts = some .all →
      ainspect_schema dp db re dbt nm raw (.tables ts) o = .ok schema →
      ∃ rt tS, pylookup T raw.tables = some rt ∧
        pylookup T schema.tables = some tS ∧
        tS.columns.map Prod.fst = rt.columns.map Prod.fst) ∧
    (∀ (schema : DatabaseSchema) (T : String) (rt : RawTable),
      raw.WF →
      ainspect_schema dp db re dbt nm raw .full o = .ok schema →
      pylookup T raw.tables = some rt →
      ∃ tS, pylookup T schema.tables = some tS ∧
        tS.columns.map Prod.fst = rt.columns.map Prod.fst) := by
  constructor
  · intro ts schema T hnd hwf hsel hschema
    refine ainspect_lookup_all dp db re dbt nm raw (.tables ts) o schema T
      hschema (resolve_keys_nodup re raw ts o hnd)
      (resolve_preserves_explicit re raw ts o T .all hsel) ?_
    intro rt hrt
    exact hwf.2 _ (mem_of_pylookup _ _ _ hrt)
  · intro schema T rt hwf hschema hrt
    have hkeys : ((resolveSemanticTables re raw .full o).map Prod.fst).Nodup := by
      rw [resolve_full, List.map_map]
      exact hwf.1
    have hsel : pylookup T (resolveSemanticTables re raw .full o) =
        some .all := by
      rw [resolve_full, pylookup_map_const, hrt]
      rfl
    obtain ⟨rt', tS, hrt', hlook, hcols⟩ :=
      ainspect_lookup_all dp db re dbt nm raw .full o schema T hschema hkeys
        hsel (fun rt2 hrt2 => hwf.2 _ (mem_of_pylookup _ _ _ hrt2))
    have hr2 : rt = rt' := by
      rw [hrt] at hrt'
      injection hrt'
    subst hr2
    exact ⟨tS, hlook, hcols⟩

/-- C4 witness: a one-table raw schema selected with `"all"`; the
inspection succeeds and the returned table has exactly the raw columns. -/
theorem C4_selection_witness :
    ∃ rt tS,
      pylookup "t"
        (RawSchema.mk [("t", ⟨"main", [("a", "int"), ("b", "text")]⟩)]).tables =
          some rt ∧
      pylookup "t"
        (DatabaseSchema.mk "duckdb" "c"
          [("t", ⟨"t", "main", "",
            [("a", ⟨"a", "int", "", [], ColumnValuesStats.empty⟩),
             ("b", ⟨"b", "text", "", [], ColumnValuesStats.empty⟩)]⟩)]).tables =
          some tS ∧
      tS.columns.map Prod.fst = rt.columns.map Prod.fst :=
  (C4_selection_completeness
    ⟨fun _ => false, fun _ => false, fun _ => false, fun _ => false,
      fun _ => false, fun _ => false, fun _ => false⟩
    ⟨fun _ _ => ⟨0, 0⟩, fun _ _ _ => [], fun _ _ => [], fun _ _ => [],
      fun _ _ => []⟩
    (fun _ _ => false) "duckdb" "c"
    ⟨[("t", ⟨"main", [("a", "int"), ("b", "text")]⟩)]⟩
    ⟨.NONE, false, 10, 1, none, none, false⟩).1
    [("t", .all)]
    (DatabaseSchema.mk "duckdb" "c"
      [("t", ⟨"t", "main", "",
        [("a", ⟨"a", "int", "", [], ColumnValuesStats.empty⟩),
         ("b", ⟨"b", "text", "", [], ColumnValuesStats.empty⟩)]⟩)])
    "t" (by simp) (by constructor <;> simp [RawSchema.WF]) rfl rfl

theorem exceptMapM_congr {f g : α → Except ε β} (h : ∀ a, f a = g a) :
    ∀ l : List α, exceptMapM f l = exceptMapM g l := by
  intro l
  induction l with
  | nil => rfl
  | cons a rest ih => rw [exceptMapM, exceptMapM, h a, ih]

theorem inspectColumnValues_congr_regex (dp : DtypePredicates) (db : DBConn)
    (t c dt : String) (o : InspectionOptions) :
    inspectColumnValues dp db t c dt { o with columns_regex := none } =
      inspectColumnValues dp db t c dt o := by
  cases o
  rfl

theorem buildColumn_congr_regex (dp : DtypePredicates) (db : DBConn)
    (t : String) (cols : List (String × String)) (o : InspectionOptions)
    (p : String × String) :
    buildColumn dp db { o with columns_regex := none } t cols p =
      buildColumn dp db o t cols p := by
  unfold buildColumn
  cases pylookup p.1 cols with
  | none => rfl
  | some dtype =>
    dsimp only
    rw [inspectColumnValues_congr_regex]

theorem resolveColumns_all_congr_regex (re : String → String → Bool)
    (rt : RawTable) (o : InspectionOptions) :
    resolveColumns re rt .all { o with columns_regex := none } =
      resolveColumns re rt .all o := by
  unfold resolveColumns
  cases o.columns_regex <;> rfl

theorem resolveColumns_explicit_preserved (re : String → String → Bool)
    (rt : RawTable) (d : String) (cols : List (String × String))
    (o : InspectionOptions) (c desc : String)
    (h : pylookup c cols = some desc) :
    pylookup c (resolveColumns re rt (.explicitSel d cols) o) = some desc := by
  unfold resolveColumns
  dsimp only
  cases hreg : o.columns_regex with
  | none => exact h
  | some pat =>
    refine pylookup_foldl_preserved _ ?_ _ _ _ _ h
    intro acc p k w hw
    by_cases hs : (pylookup p.1 acc).isSome
    · rw [if_pos ⟨by simp, hs⟩]
      exact hw
    · rw [if_neg (fun hc => hs hc.2)]
      by_cases hc : re pat p.1
      · rw [if_pos hc]
        have hne : k ≠ p.1 := by
          intro hk
          subst hk
          rw [hw] at hs
          simp at hs
        rw [pylookup_dictSet_other _ _ _ _ hne]
        exact hw
      · rw [if_neg hc]
        exact hw

theorem resolveColumns_explicit_keys_nodup (re : String → String → Bool)
    (rt : RawTable) (d : String) (cols : List (String × String))
    (o : InspectionOptions) (hnd : (cols.map Prod.fst).Nodup) :
    ((resolveColumns re rt (.explicitSel d cols) o).map Prod.fst).Nodup := by
  unfold resolveColumns
  dsimp only
  cases hreg : o.columns_regex with
  | none => exact hnd
  | some pat =>
    refine keys_foldl_nodup _ ?_ _ _ hnd
    intro acc p hacc
    by_cases hs : (pylookup p.1 acc).isSome
    · rw [if_pos ⟨by simp, hs⟩]
      exact hacc
    · rw [if_neg (fun hc => hs hc.2)]
      by_cases hc : re pat p.1
      · rw [if_pos hc]
        exact dictSet_fresh_keys_nodup _ _ _
          (Option.not_isSome_iff_eq_none.mp hs) hacc
      · rw [if_neg hc]
        exact hacc

/-- C7: regex precedence.  (a) A table explicitly present in the semantic
dict keeps exactly its explicit selection through `tables_regex`
resolution; (b) for an explicit `"all"` selection the processed table is
identical with and without `columns_regex`; (c) a column explicitly
selected keeps its explicit description through `columns_regex`
resolution, and (d) the successfully processed table carries the explicit
table description and, for each explicitly selected column, a column
schema with the explicit description. -/
theorem C7_regex_precedence (dp : DtypePredicates) (db : DBConn)
    (re : String → String → Bool) (raw : RawSchema) (o : InspectionOptions) :
    (∀ (ts : List (String × TableSelection)) (t : String)
      (sel : TableSelection), pylookup t ts = some sel →
      pylookup t (resolveSemanticTables re raw (.tables ts) o) = some sel) ∧
    (∀ t : String,
      process_table dp db re raw { o with columns_regex := none } t .all =
        process_table dp db re raw o t .all) ∧
    (∀ (rt : RawTable) (d : String) (cols : List (String × String))
      (c desc : String), pylookup c cols = some desc →
      pylookup c (resolveColumns re rt (.explicitSel d cols) o) =
        some desc) ∧
    (∀ (t : String) (d : String) (cols : List (String × String))
      (c desc : String) (tS : TableSchema),
      process_table dp db re raw o t (.explicitSel d cols) = .ok tS →
      pylookup c cols = some desc → (cols.map Prod.fst).Nodup →
      tS.description = d ∧
      ∃ cs, pylookup c tS.columns = some cs ∧ cs.name = c ∧
        cs.description = desc) := by
  refine ⟨fun ts t sel h => resolve_preserves_explicit re raw ts o t sel h,
    ?_, ?_, ?_⟩
  · intro t
    unfold process_table
    cases pylookup t raw.tables with
    | none => rfl
    | some rt =>
      dsimp only
      rw [resolveColumns_all_congr_regex,
        exceptMapM_congr (buildColumn_congr_regex dp db t rt.columns o) _]
  · intro rt d cols c desc h
    exact resolveColumns_explicit_preserved re rt d cols o c desc h
  · intro t d cols c desc tS hok hc hnd
    obtain ⟨rt, outcols, hrt, hm, hshape⟩ :=
      process_table_ok_shape _ _ _ _ _ _ _ _ hok
    have hf₂ := exceptMapM_ok_forall₂ hm
    have hcres := resolveColumns_explicit_preserved re rt d cols o c desc hc
    have hmem := mem_of_pylookup _ _ _ hcres
    obtain ⟨cs, hcs, hbuild⟩ := forall₂_mem_left hf₂ (c, desc) hmem
    obtain ⟨dtype, hdt, hcsv⟩ := buildColumn_ok_shape _ _ _ _ _ _ _ hbuild
    have hresnd := resolveColumns_explicit_keys_nodup re rt d cols o hnd
    have hnames : outcols.map ColumnSchema.name =
        (resolveColumns re rt (.explicitSel d cols) o).map Prod.fst := by
      apply forall₂_map_eq _ hf₂
      intro a b hab
      obtain ⟨dt2, _, hb2⟩ := buildColumn_ok_shape _ _ _ _ _ _ _ hab
      rw [hb2]
    have houtnd : ((outcols.map (fun c2 => (c2.name, c2))).map Prod.fst).Nodup := by
      rw [List.map_map]
      show (outcols.map ColumnSchema.name).Nodup
      rw [hnames]
      exact hresnd
    constructor
    · rw [hshape]
      rfl
    · refine ⟨cs, ?_, ?_, ?_⟩
      · rw [hshape]
        dsimp only
        rw [dictOfList_eq_self _ houtnd]
        have hmem2 : (c, cs) ∈ outcols.map (fun c2 => (c2.name, c2)) := by
          have hn : cs.name = c := by rw [hcsv]
          rw [← hn]
          exact List.mem_map_of_mem _ hcs
        exact pylookup_of_mem_nodup _ _ _ houtnd hmem2
      · rw [hcsv]
      · rw [hcsv]

/-- C7 witness: a table with an explicit selection (explicit description
for column `a`) against an everything-matching regex; the explicit table
selection and column description survive, while regex only added column
`b`. -/
theorem C7_regex_precedence_witness :
    pylookup "t"
      (resolveSemanticTables (fun _ _ => true)
        ⟨[("t", ⟨"main", [("a", "int"), ("b", "text")]⟩)]⟩
        (.tables [("t", .explicitSel "T desc" [("a", "col a desc")])])
        ⟨.NONE, false, 10, 1, some ".*", some ".*", false⟩) =
      some (.explicitSel "T desc" [("a", "col a desc")]) ∧
    pylookup "a"
      (resolveColumns (fun _ _ => true) ⟨"main", [("a", "int"), ("b", "text")]⟩
        (.explicitSel "T desc" [("a", "col a desc")])
        ⟨.NONE, false, 10, 1, some ".*", some ".*", false⟩) =
      some "col a desc" ∧
    ((TableSchema.mk "t" "main" "T desc"
      [("a", ⟨"a", "int", "col a desc", [], ColumnValuesStats.empty⟩),
       ("b", ⟨"b", "text", "", [], ColumnValuesStats.empty⟩)]).description =
        "T desc" ∧
      ∃ cs, pylookup "a"
          (TableSchema.mk "t" "main" "T desc"
            [("a", ⟨"a", "int", "col a desc", [], ColumnValuesStats.empty⟩),
             ("b", ⟨"b", "text", "", [], ColumnValuesStats.empty⟩)]).columns =
          some cs ∧ cs.name = "a" ∧ cs.description = "col a desc") :=
  ⟨(C7_regex_precedence
      ⟨fun _ => false, fun _ => false, fun _ => false, fun _ => false,
        fun _ => false, fun _ => false, fun _ => false⟩
      ⟨fun _ _ => ⟨0, 0⟩, fun _ _ _ => [], fun _ _ => [], fun _ _ => [],
        fun _ _ => []⟩
      (fun _ _ => true) ⟨[("t", ⟨"main", [("a", "int"), ("b", "text")]⟩)]⟩
      ⟨.NONE, false, 10, 1, some ".*", some ".*", false⟩).1
      [("t", .explicitSel "T desc" [("a", "col a desc")])] "t"
      (.explicitSel "T desc" [("a", "col a desc")]) rfl,
   (C7_regex_precedence
      ⟨fun _ => false, fun _ => false, fun _ => false, fun _ => false,
        fun _ => false, fun _ => false, fun _ => false⟩
      ⟨fun _ _ => ⟨0, 0⟩, fun _ _ _ => [], fun _ _ => [], fun _ _ => [],
        fun _ _ => []⟩
      (fun _ _ => true) ⟨[("t", ⟨"main", [("a", "int"), ("b", "text")]⟩)]⟩
      ⟨.NONE, false, 10, 1, some ".*", some ".*", false⟩).2.2.1
      ⟨"main", [("a", "int"), ("b", "text")]⟩ "T desc"
      [("a", "col a desc")] "a" "col a desc" rfl,
   (C7_regex_precedence
      ⟨fun _ => false, fun _ => false, fun _ => false, fun _ => false,
        fun _ => false, fun _ => false, fun _ => false⟩
      ⟨fun _ _ => ⟨0, 0⟩, fun _ _ _ => [], fun _ _ => [], fun _ _ => [],
        fun _ _ => []⟩
      (fun _ _ => true) ⟨[("t", ⟨"main", [("a", "int"), ("b", "text")]⟩)]⟩
      ⟨.NONE, false, 10, 1, some ".*", some ".*", false⟩).2.2.2
      "t" "T desc" [("a", "col a desc")] "a" "col a desc"
      (TableSchema.mk "t" "main" "T desc"
        [("a", ⟨"a", "int", "col a desc", [], ColumnValuesStats.empty⟩),
         ("b", ⟨"b", "text", "", [], ColumnValuesStats.empty⟩)])
      rfl rfl (by simp)⟩

/-- C2 (amended): schema inspection fails loudly on unknown references —
with `ValueError`, the class the source actually raises.  (1) If the
inspection succeeds, every selected table exists in the raw physical
schema and every resolved column of it exists in that table (nothing is
silently skipped).  (2) If the inspection fails, the error is the
`ValueError` for some selected-but-missing table, whose message names that
exact table, or the `ValueError` for some resolved-but-missing column,
whose message names `table.column` and lists the available columns. -/
theorem C2_unknown_reference_fails_loud (dp : DtypePredicates) (db : DBConn)
    (re : String → String → Bool) (dbt nm : String) (raw : RawSchema)
    (sd : SemanticDict) (o : InspectionOptions) :
    (∀ schema, ainspect_schema dp db re dbt nm raw sd o = .ok schema →
      ∀ t sel, (t, sel) ∈ resolveSemanticTables re raw sd o →
        ∃ rt, pylookup t raw.tables = some rt ∧
          ∀ c desc, (c, desc) ∈ resolveColumns re rt sel o →
            (pylookup c rt.columns).isSome) ∧
    (∀ e, ainspect_schema dp db re dbt nm raw sd o = .error e →
      (∃ t sel, (t, sel) ∈ resolveSemanticTables re raw sd o ∧
        pylookup t raw.tables = none ∧
        e = .valueError (tableMissingMsg t) ∧
        ∃ pre post, tableMissingMsg t = pre ++ t ++ post) ∨
      (∃ t sel rt c desc, (t, sel) ∈ resolveSemanticTables re raw sd o ∧
        pylookup t raw.tables = some rt ∧
        (c, desc) ∈ resolveColumns re rt sel o ∧
        pylookup c rt.columns = none ∧
        e = .valueError (columnMissingMsg t c (rt.columns.map Prod.fst)) ∧
        (∃ pre post, columnMissingMsg t c (rt.columns.map Prod.fst) =
          pre ++ (t ++ "." ++ c) ++ post) ∧
        (∃ pre, columnMissingMsg t c (rt.columns.map Prod.fst) =
          pre ++ pyStrList (rt.columns.map Prod.fst)))) := by
  constructor
  · intro schema hschema t sel hmem
    obtain ⟨tables, hm, _⟩ := ainspect_ok_shape _ _ _ _ _ _ _ _ _ hschema
    have hf₂ := exceptMapM_ok_forall₂ hm
    obtain ⟨tS, _, hproc⟩ := forall₂_mem_left hf₂ (t, sel) hmem
    obtain ⟨rt, cols, hrt, hcm, _⟩ :=
      process_table_ok_shape _ _ _ _ _ _ _ _ hproc
    refine ⟨rt, hrt, ?_⟩
    intro c desc hcmem
    have hcf₂ := exceptMapM_ok_forall₂ hcm
    obtain ⟨cs, _, hbuild⟩ := forall₂_mem_left hcf₂ (c, desc) hcmem
    obtain ⟨dtype, hdt, _⟩ := buildColumn_ok_shape _ _ _ _ _ _ _ hbuild
    rw [hdt]
    rfl
  · intro e herr
    obtain ⟨p, hp, hperr⟩ := ainspect_error_shape _ _ _ _ _ _ _ _ _ herr
    rcases process_table_error_shape _ _ _ _ _ _ _ _ hperr with
      ⟨hmiss, hmsg⟩ | ⟨rt, c, desc, hrt, hcmem, hcmiss, hmsg⟩
    · refine Or.inl ⟨p.1, p.2, hp, hmiss, hmsg, "Table ",
        " doesn" ++ apos ++ "t exist.", ?_⟩
      unfold tableMissingMsg
      simp only [String.append_assoc]
    · refine Or.inr ⟨p.1, p.2, rt, c, desc, hp, hrt, hcmem, hcmiss, hmsg,
        ⟨"Column ", " doesn" ++ apos ++ "t exist. Available columns: " ++
          pyStrList (rt.columns.map Prod.fst), ?_⟩,
        "Column " ++ p.1 ++ "." ++ c ++ " doesn" ++ apos ++
          "t exist. Available columns: ", ?_⟩
      · unfold columnMissingMsg
        simp only [String.append_assoc]
      · unfold columnMissingMsg
        simp only [String.append_assoc]

/-- C2 counterexample: the claim names `NotFoundError`; at a concrete
missing-table input the inspection aborts with a `ValueError` (the
repository has no NotFoundError), which is not a `notFoundError` value for
any message. -/
theorem C2_counterexample :
    ainspect_schema
      ⟨fun _ => false, fun _ => false, fun _ => false, fun _ => false,
        fun _ => false, fun _ => false, fun _ => false⟩
      ⟨fun _ _ => ⟨0, 0⟩, fun _ _ _ => [], fun _ _ => [], fun _ _ => [],
        fun _ _ => []⟩
      (fun _ _ => false) "duckdb" "c" ⟨[]⟩ (.tables [("t", .all)])
      ⟨.NONE, false, 10, 1, none, none, false⟩ =
      .error (.valueError (tableMissingMsg "t")) ∧
    ∀ m, PyErr.valueError (tableMissingMsg "t") ≠ PyErr.notFoundError m := by
  constructor
  · rfl
  · intro m h
    cases h

/-- C2 witness: a selection asking for the nonexistent column `t.z` of a
one-column table; the amended theorem's failure branch yields the
column-naming `ValueError`. -/
theorem C2_fails_loud_witness :
    (∃ t sel, (t, sel) ∈ resolveSemanticTables (fun _ _ => false)
        ⟨[("t", ⟨"main", [("a", "int")]⟩)]⟩
        (.tables [("t", .explicitSel "" [("z", "")])])
        ⟨.NONE, false, 10, 1, none, none, false⟩ ∧
      pylookup t (RawSchema.mk [("t", ⟨"main", [("a", "int")]⟩)]).tables =
        none ∧
      PyErr.valueError (columnMissingMsg "t" "z" ["a"]) =
        .valueError (tableMissingMsg t) ∧
      ∃ pre post, tableMissingMsg t = pre ++ t ++ post) ∨
    (∃ t sel rt c desc,
      (t, sel) ∈ resolveSemanticTables (fun _ _ => false)
        ⟨[("t", ⟨"main", [("a", "int")]⟩)]⟩
        (.tables [("t", .explicitSel "" [("z", "")])])
        ⟨.NONE, false, 10, 1, none, none, false⟩ ∧
      pylookup t (RawSchema.mk [("t", ⟨"main", [("a", "int")]⟩)]).tables =
        some rt ∧
      (c, desc) ∈ resolveColumns (fun _ _ => false) rt sel
        ⟨.NONE, false, 10, 1, none, none, false⟩ ∧
      pylookup c rt.columns = none ∧
      PyErr.valueError (columnMissingMsg "t" "z" ["a"]) =
        .valueError (columnMissingMsg t c (rt.columns.map Prod.fst)) ∧
      (∃ pre post, columnMissingMsg t c (rt.columns.map Prod.fst) =
        pre ++ (t ++ "." ++ c) ++ post) ∧
      (∃ pre, columnMissingMsg t c (rt.columns.map Prod.fst) =
        pre ++ pyStrList (rt.columns.map Prod.fst))) :=
  (C2_unknown_reference_fails_loud
    ⟨fun _ => false, fun _ => false, fun _ => false, fun _ => false,
      fun _ => false, fun _ => false, fun _ => false⟩
    ⟨fun _ _ => ⟨0, 0⟩, fun _ _ _ => [], fun _ _ => [], fun _ _ => [],
      fun _ _ => []⟩
    (fun _ _ => false) "duckdb" "c" ⟨[("t", ⟨"main", [("a", "int")]⟩)]⟩
    (.tables [("t", .explicitSel "" [("z", "")])])
    ⟨.NONE, false, 10, 1, none, none, false⟩).2
    (.valueError (columnMissingMsg "t" "z" ["a"])) rfl

theorem char_toNat_inj (c d : Char) (h : c.toNat = d.toNat) : c = d :=
  Char.eq_of_val_eq (UInt32.ext h)

theorem lexLt_irrefl : ∀ x : List Char, lexLt x x = false := by
  intro x
  induction x with
  | nil => rfl
  | cons a as ih =>
    rw [lexLt, if_neg (Nat.lt_irrefl _), if_neg (Nat.lt_irrefl _)]
    exact ih

theorem lexLt_trans : ∀ x y z : List Char,
    lexLt x y = true → lexLt y z = true → lexLt x z = true := by
  intro x
  induction x with
  | nil =>
    intro y z h1 h2
    cases y with
    | nil => simp [lexLt] at h1
    | cons b bs =>
      cases z with
      | nil => simp [lexLt] at h2
      | cons c cs => rfl
  | cons a as ih =>
    intro y z h1 h2
    cases y with
    | nil => simp [lexLt] at h1
    | cons b bs =>
      cases z with
      | nil => simp [lexLt] at h2
      | cons c cs =>
        rw [lexLt] at h1 h2 ⊢
        by_cases hab : a.toNat < b.toNat
        · rw [if_pos hab] at h1
          by_cases hbc : b.toNat < c.toNat
          · rw [if_pos (Nat.lt_trans hab hbc)]
          · rw [if_neg hbc] at h2
            by_cases hcb : c.toNat < b.toNat
            · rw [if_pos hcb] at h2
              simp at h2
            · rw [if_pos (show a.toNat < c.toNat by omega)]
        · rw [if_neg hab] at h1
          by_cases hba : b.toNat < a.toNat
          · rw [if_pos hba] at h1
            simp at h1
          · rw [if_neg hba] at h1
            by_cases hbc : b.toNat < c.toNat
            · rw [if_pos (show a.toNat < c.toNat by omega)]
            · rw [if_neg hbc] at h2
              by_cases hcb : c.toNat < b.toNat
              · rw [if_pos hcb] at h2
                simp at h2
              · rw [if_neg hcb] at h2
                rw [if_neg (show ¬ a.toNat < c.toNat by omega),
                  if_neg (show ¬ c.toNat < a.toNat by omega)]
                exact ih bs cs h1 h2

theorem lexLt_trichotomy : ∀ x y : List Char,
    lexLt x y = true ∨ x = y ∨ lexLt y x = true := by
  intro x
  induction x with
  | nil =>
    intro y
    cases y with
    | nil => exact Or.inr (Or.inl rfl)
    | cons b bs => exact Or.inl rfl
  | cons a as ih =>
    intro y
    cases y with
    | nil => exact Or.inr (Or.inr rfl)
    | cons b bs =>
      by_cases hab : a.toNat < b.toNat
      · exact Or.inl (by rw [lexLt, if_pos hab])
      · by_cases hba : b.toNat < a.toNat
        · exact Or.inr (Or.inr (by rw [lexLt, if_pos hba]))
        · have heq : a = b := char_toNat_inj a b (by omega)
          subst heq
          rcases ih bs with h | h | h
          · exact Or.inl (by
              rw [lexLt, if_neg (Nat.lt_irrefl _), if_neg (Nat.lt_irrefl _)]
              exact h)
          · exact Or.inr (Or.inl (by rw [h]))
          · exact Or.inr (Or.inr (by
              rw [lexLt, if_neg (Nat.lt_irrefl _), if_neg (Nat.lt_irrefl _)]
              exact h))

theorem lexLt_asymm (x y : List Char) (h : lexLt x y = true) :
    lexLt y x = false := by
  cases hc : lexLt y x
  · rfl
  · have := lexLt_trans _ _ _ h hc
    rw [lexLt_irrefl] at this
    simp at this

theorem strLeb_total (a b : String) : strLeb a b = true ∨ strLeb b a = true := by
  unfold strLeb
  by_cases h : lexLt b.data a.data = true
  · right
    rw [lexLt_asymm _ _ h]
    rfl
  · left
    rw [Bool.not_eq_true] at h
    rw [h]
    rfl

theorem strLeb_trans (a b c : String) (h1 : strLeb a b = true)
    (h2 : strLeb b c = true) : strLeb a c = true := by
  unfold strLeb at h1 h2 ⊢
  rw [Bool.not_eq_true'] at h1 h2 ⊢
  cases hc : lexLt c.data a.data
  · rfl
  · exfalso
    rcases lexLt_trichotomy b.data c.data with h | h | h
    · rw [lexLt_trans _ _ _ h hc] at h1
      cases h1
    · rw [← h] at hc
      rw [hc] at h1
      cases h1
    · rw [h] at h2
      cases h2

theorem strLeb_antisymm (a b : String) (h1 : strLeb a b = true)
    (h2 : strLeb b a = true) : a = b := by
  unfold strLeb at h1 h2
  rw [Bool.not_eq_true'] at h1 h2
  rcases lexLt_trichotomy a.data b.data with h | h | h
  · rw [h] at h2
    cases h2
  · exact String.ext h
  · rw [h] at h1
    cases h1

theorem insertByKey_perm (p : String × α) :
    ∀ l : List (String × α), (insertByKey p l).Perm (p :: l) := by
  intro l
  induction l with
  | nil => exact List.Perm.refl _
  | cons q rest ih =>
    rw [insertByKey]
    by_cases h : strLeb p.1 q.1
    · rw [if_pos h]
    · rw [if_neg h]
      exact (ih.cons q).trans (List.Perm.swap p q rest)

theorem sortByKey_perm : ∀ l : List (String × α), (sortByKey l).Perm l := by
  intro l
  induction l with
  | nil => exact List.Perm.refl _
  | cons p rest ih =>
    rw [sortByKey]
    exact (insertByKey_perm p (sortByKey rest)).trans (ih.cons p)

theorem insertByKey_sorted (p : String × α) :
    ∀ l : List (String × α),
      List.Pairwise (fun a b => strLeb a.1 b.1 = true) l →
      List.Pairwise (fun a b => strLeb a.1 b.1 = true) (insertByKey p l) := by
  intro l
  induction l with
  | nil =>
    intro _
    simp [insertByKey]
  | cons q rest ih =>
    intro hl
    rcases List.pairwise_cons.mp hl with ⟨hq, hrest⟩
    rw [insertByKey]
    by_cases h : strLeb p.1 q.1
    · rw [if_pos h]
      refine List.pairwise_cons.mpr ⟨?_, hl⟩
      intro r hr
      rcases List.mem_cons.mp hr with hh | ht
      · subst hh
        exact h
      · exact strLeb_trans _ _ _ h (hq r ht)
    · rw [if_neg h]
      refine List.pairwise_cons.mpr ⟨?_, ih hrest⟩
      intro r hr
      have hmem : r ∈ p :: rest := (insertByKey_perm p rest).mem_iff.mp hr
      rcases List.mem_cons.mp hmem with hh | ht
      · rw [hh]
        rcases strLeb_total p.1 q.1 with hpq | hqp
        · exact absurd hpq h
        · exact hqp
      · exact hq r ht

theorem sortByKey_sorted :
    ∀ l : List (String × α),
      List.Pairwise (fun a b => strLeb a.1 b.1 = true) (sortByKey l) := by
  intro l
  induction l with
  | nil => exact List.Pairwise.nil
  | cons p rest ih =>
    rw [sortByKey]
    exact insertByKey_sorted p _ ih

theorem sortByKey_eq_of_perm (l1 l2 : List (String × α)) (hp : l1.Perm l2)
    (hnd : (l1.map Prod.fst).Nodup) : sortByKey l1 = sortByKey l2 := by
  have hperm : (sortByKey l1).Perm (sortByKey l2) :=
    (sortByKey_perm l1).trans (hp.trans (sortByKey_perm l2).symm)
  have hnd1 : ((sortByKey l1).map Prod.fst).Nodup :=
    (((sortByKey_perm l1).map Prod.fst).nodup_iff).mpr hnd
  have hnd2 : ((sortByKey l2).map Prod.fst).Nodup :=
    ((hperm.map Prod.fst).nodup_iff).mp hnd1
  have hstrict : ∀ (l : List (String × α)),
      List.Pairwise (fun a b => strLeb a.1 b.1 = true) l →
      (l.map Prod.fst).Nodup →
      List.Pairwise (fun a b : String × α =>
        strLeb a.1 b.1 = true ∧ a.1 ≠ b.1) l := by
    intro l hs hn
    have hne : List.Pairwise (fun a b : String × α => a.1 ≠ b.1) l :=
      List.pairwise_map.mp hn
    exact hs.and hne
  haveI : IsAntisymm (String × α)
      (fun a b => strLeb a.1 b.1 = true ∧ a.1 ≠ b.1) :=
    ⟨fun a b hab hba => absurd (strLeb_antisymm _ _ hab.1 hba.1) hab.2⟩
  exact List.eq_of_perm_of_sorted hperm
    (hstrict _ (sortByKey_sorted l1) hnd1)
    (hstrict _ (sortByKey_sorted l2) hnd2)

theorem jObj_perm (l1 l2 : List (String × String)) (hp : l1.Perm l2)
    (hnd : (l1.map Prod.fst).Nodup) : jObj l1 = jObj l2 := by
  unfold jObj
  rw [sortByKey_eq_of_perm l1 l2 hp hnd]

theorem selEquiv_dump (s1 s2 : TableSelection) (h : SelEquiv s1 s2)
    (hwf : SelWF s1) : s1.dump = s2.dump := by
  cases h with
  | all => rfl
  | impAll => rfl
  | explicitSel d c1 c2 hperm =>
    unfold TableSelection.dump
    dsimp only
    have hinner : jObj (c1.map (fun p => (p.1, jStr p.2))) =
        jObj (c2.map (fun p => (p.1, jStr p.2))) := by
      apply jObj_perm _ _ (hperm.map _)
      rw [List.map_map]
      exact hwf
    rw [hinner]

theorem tables_map_dump_eq :
    ∀ {t t2 : List (String × TableSelection)},
      List.Forall₂ (fun a b => a.1 = b.1 ∧ SelEquiv a.2 b.2) t t2 →
      (∀ p ∈ t, SelWF p.2) →
      t.map (fun p => (p.1, p.2.dump)) = t2.map (fun p => (p.1, p.2.dump)) := by
  intro t t2 h
  induction h with
  | nil => intro _; rfl
  | cons hab hrest ih =>
    intro hwf
    simp only [List.map_cons]
    rw [hab.1, selEquiv_dump _ _ hab.2 (hwf _ (List.mem_cons_self _ _)),
      ih (fun p hp => hwf p (List.mem_cons_of_mem _ hp))]

theorem semDump_equiv (sd1 sd2 : SemanticDict) (h : SemEquiv sd1 sd2)
    (hwf : SemWF sd1) : sd1.dump = sd2.dump := by
  cases h with
  | full => rfl
  | tables t1 t2 ht =>
    obtain ⟨t, hperm, hf₂⟩ := ht
    obtain ⟨hnd, hselwf⟩ := hwf
    unfold SemanticDict.dump
    dsimp only
    have h1 : jObj (t1.map (fun p => (p.1, p.2.dump))) =
        jObj (t.map (fun p => (p.1, p.2.dump))) := by
      apply jObj_perm _ _ (hperm.map _)
      rw [List.map_map]
      exact hnd
    have h2 : t.map (fun p => (p.1, p.2.dump)) =
        t2.map (fun p => (p.1, p.2.dump)) :=
      tables_map_dump_eq hf₂ (fun p hp => hselwf p (hperm.mem_iff.mpr hp))
    rw [h1, h2]

theorem natEncode_decode (k : Nat) :
    Nat.ofDigits 10 (((natEncode k).data.reverse).map
      (fun c => c.toNat - 48)) = k := by
  by_cases h : k = 0
  · subst h
    decide
  · unfold natEncode
    rw [if_neg h]
    have hdata : (String.mk ((Nat.digits 10 k).reverse.map
        Nat.digitChar)).data = (Nat.digits 10 k).reverse.map Nat.digitChar :=
      rfl
    rw [hdata, ← List.map_reverse, List.reverse_reverse, List.map_map]
    have hmap : ((Nat.digits 10 k).map
        ((fun c : Char => c.toNat - 48) ∘ Nat.digitChar)) =
        (Nat.digits 10 k).map id := by
      apply List.map_congr_left
      intro d hd
      have hlt : d < 10 := Nat.digits_lt_base (by norm_num) hd
      have hdig : ∀ d2 < 10, (Nat.digitChar d2).toNat - 48 = d2 := by decide
      exact hdig d hlt
    rw [hmap, List.map_id]
    exact Nat.ofDigits_digits 10 k

theorem natEncode_inj (m n : Nat) (h : natEncode m = natEncode n) : m = n := by
  have hm := natEncode_decode m
  rw [h, natEncode_decode n] at hm
  exact hm.symm

theorem optsObj_data (o : InspectionOptions) :
    (jObj o.model_dump_for_cache).data =
      lbrace.data ++ (jStr "cache_intermediate_results").data ++ ": ".data ++
      (jBool o.cache_intermediate_results).data ++ ", ".data ++
      (jStr "columns_regex").data ++ ": ".data ++
      (jOptStr o.columns_regex).data ++ ", ".data ++
      (jStr "inspect_column_stats").data ++ ": ".data ++
      (jBool o.inspect_column_stats).data ++ ", ".data ++
      (jStr "max_enum_values").data ++ ": ".data ++
      (natEncode o.max_enum_values).data ++ ", ".data ++
      (jStr "max_unique_rate").data ++ ": ".data ++
      (ratEncode o.max_unique_rate).data ++ ", ".data ++
      (jStr "tables_regex").data ++ ": ".data ++
      (jOptStr o.tables_regex).data ++ ", ".data ++
      (jStr "value_sampling_strategy").data ++ ": ".data ++
      o.value_sampling_strategy.dump.data ++ rbrace.data := by
  have hsort : sortByKey o.model_dump_for_cache =
      [("cache_intermediate_results", jBool o.cache_intermediate_results),
       ("columns_regex", jOptStr o.columns_regex),
       ("inspect_column_stats", jBool o.inspect_column_stats),
       ("max_enum_values", natEncode o.max_enum_values),
       ("max_unique_rate", ratEncode o.max_unique_rate),
       ("tables_regex", jOptStr o.tables_regex),
       ("value_sampling_strategy", o.value_sampling_strategy.dump)] := rfl
  unfold jObj
  rw [hsort]
  simp [joinSep, String.data_append, List.append_assoc]

theorem key_data (sd : SemanticDict) (o : InspectionOptions) :
    (get_inspection_cache_key sd o).data =
      lbrace.data ++ (jStr "inspection_options").data ++ ": ".data ++
      (jObj o.model_dump_for_cache).data ++ ", ".data ++
      (jStr "semantic_dict").data ++ ": ".data ++ sd.dump.data ++
      rbrace.data := by
  unfold get_inspection_cache_key
  generalize hO : jObj o.model_dump_for_cache = O
  unfold jObj
  have hsort : sortByKey [("semantic_dict", sd.dump),
      ("inspection_options", O)] =
      [("inspection_options", O), ("semantic_dict", sd.dump)] := rfl
  rw [hsort]
  simp [joinSep, String.data_append, List.append_assoc]

/-- C5: the inspection cache key is insensitive to the ordering of the
internal dict mappings — logically identical semantic dicts (same tables,
same selections, any internal order, with the unique keys of real Python
dicts) produce the same key string — while two option policies differing
only in `max_enum_values` always produce different key strings. -/
theorem C5_cache_key_deterministic :
    (∀ (sd1 sd2 : SemanticDict) (o : InspectionOptions),
      SemEquiv sd1 sd2 → SemWF sd1 →
      get_inspection_cache_key sd1 o = get_inspection_cache_key sd2 o) ∧
    (∀ (sd : SemanticDict) (o : InspectionOptions) (n2 : Nat),
      n2 ≠ o.max_enum_values →
      get_inspection_cache_key sd o ≠
        get_inspection_cache_key sd { o with max_enum_values := n2 }) := by
  constructor
  · intro sd1 sd2 o hequiv hwf
    unfold get_inspection_cache_key
    rw [semDump_equiv sd1 sd2 hequiv hwf]
  · intro sd o n2 hne h
    have hd := congrArg String.data h
    rw [key_data, key_data, optsObj_data, optsObj_data] at hd
    dsimp only at hd
    simp only [List.append_assoc] at hd
    iterate 18 replace hd := List.append_cancel_left hd
    replace hd := List.append_cancel_right hd
    exact hne (natEncode_inj _ _ (String.ext hd)).symm

/-- C5 witness: the same two-table selection in two different dict orders
keys identically; changing only `max_enum_values` from 10 to 3 changes the
key. -/
theorem C5_cache_key_witness :
    get_inspection_cache_key
        (.tables [("a", .all), ("b", .all)])
        ⟨.NONE, false, 10, 1, none, none, false⟩ =
      get_inspection_cache_key
        (.tables [("b", .all), ("a", .all)])
        ⟨.NONE, false, 10, 1, none, none, false⟩ ∧
    get_inspection_cache_key .full ⟨.NONE, false, 10, 1, none, none, false⟩ ≠
      get_inspection_cache_key .full
        ⟨.NONE, false, 3, 1, none, none, false⟩ :=
  ⟨C5_cache_key_deterministic.1 _ _ _
      (SemEquiv.tables _ _ ⟨[("b", .all), ("a", .all)],
        List.Perm.swap ("b", TableSelection.all) ("a", TableSelection.all) [],
        List.Forall₂.cons ⟨rfl, SelEquiv.all⟩
          (List.Forall₂.cons ⟨rfl, SelEquiv.all⟩ List.Forall₂.nil)⟩)
      ⟨by decide, fun p hp => by fin_cases hp <;> trivial⟩,
   C5_cache_key_deterministic.2 .full
      ⟨.NONE, false, 10, 1, none, none, false⟩ 3 (by decide)⟩
